import Mathlib

/-!
Verification development for the pyzx circuit optimizer (`pyzx/optimize.py`).

The Python source is shallowly embedded: the mutable per-qubit dictionaries of
the `Optimizer` class (keyed by the qubits `0 .. qubits-1`, iterated in
ascending order) become lists indexed by qubit, Python exceptions become
`Except String`, and the unbounded `while` loops of the drivers and of the
topological scheduler are given explicit fuel (with fuel exhaustion reported
as an error, which corresponds to a diverging Python loop).  Phases are
rational numbers; Python's `%` on `Fraction` is `pymod` below.

External collaborators that are not part of the given source
(`Circuit`/`Gate` construction helpers, `permutation_as_swaps`, `todd_simp`,
`SWAP.to_basic_gates`) are modelled from the spec where required; each such
definition is marked `Modelled from the spec:` in its doc comment.
-/

set_option maxRecDepth 10000

namespace PyZX

/-- Gate kinds appearing in `optimize.py`.  In pyzx these are classes whose
`name` attribute drives dispatch; `Z`, `S` and `T` are subclasses of `ZPhase`
(here collapsed into `zphase`, with the cosmetic `adjoint` flag dropped since
the phase value itself is always carried), and `NOT` is the X gate.  `xphase`
and `swapg` are gate kinds the rewriter does not support. -/
inductive GName where
  | zphase | had | nott | cnot | cz | swapg | xphase
deriving DecidableEq, Repr

/-- A gate value: kind, qubit indices, phase (in units of π, taken mod 2), and
the mutable pairing `index` field used to identify the two per-qubit copies of
a two-qubit gate.  Single-qubit gates ignore `control`. -/
structure Gate where
  name : GName
  target : Nat
  control : Nat := 0
  phase : ℚ := 0
  index : Nat := 0
deriving DecidableEq, Repr

def ZPhaseG (t : Nat) (p : ℚ) : Gate := { name := .zphase, target := t, phase := p }
def HADG (t : Nat) : Gate := { name := .had, target := t }
def NOTG (t : Nat) : Gate := { name := .nott, target := t, phase := 1 }
def CNOTG (c t : Nat) : Gate := { name := .cnot, target := t, control := c }
def CZG (c t : Nat) : Gate := { name := .cz, target := t, control := c }
def SWAPG (c t : Nat) : Gate := { name := .swapg, target := t, control := c }
def XPhaseG (t : Nat) (p : ℚ) : Gate := { name := .xphase, target := t, phase := p }

/-- pyzx `Z(t)`: a `ZPhase` with phase π. -/
def ZG (t : Nat) : Gate := ZPhaseG t 1

/-- pyzx `S(t, adjoint)`: a `ZPhase` with phase π/2, or 3π/2 for the adjoint
(`parse_gate` distinguishes the adjoint by `phase.numerator > 1`). -/
def SG (t : Nat) (adjoint : Bool) : Gate := ZPhaseG t (if adjoint then 3/2 else 1/2)

/-- `isinstance(g, ZPhase)`. -/
def isZPhase (g : Gate) : Prop := g.name = .zphase

instance (g : Gate) : Decidable (isZPhase g) := by unfold isZPhase; infer_instance

/-- `isinstance(g, XPhase)` (`NOT` is a subclass of `XPhase` in pyzx). -/
def isXPhase (g : Gate) : Prop := g.name = .xphase ∨ g.name = .nott

instance (g : Gate) : Decidable (isXPhase g) := by unfold isXPhase; infer_instance

def isTwoQubit (g : Gate) : Prop := g.name = .cz ∨ g.name = .cnot

instance (g : Gate) : Decidable (isTwoQubit g) := by unfold isTwoQubit; infer_instance

/-- Python's `%` on `Fraction`s with modulus `b > 0`: result in `[0, b)`. -/
def pymod (a b : ℚ) : ℚ := a - b * (Rat.floor (a / b) : ℚ)

/-- Python's `list.remove`: drop the first element equal to `a` (no-op when
absent; the Python original would raise, but every call site first checks
membership or knows the element is present). -/
def removeFirst {α} [DecidableEq α] : List α → α → List α
  | [], _ => []
  | x :: xs, a => if x = a then xs else x :: removeFirst xs a

/-- `toggle_element` from `optimize.py`. -/
def toggle_element {α} [DecidableEq α] (l : List α) (e : α) : List α :=
  if e ∈ l then removeFirst l e else l ++ [e]

/-- `swap_element` from `optimize.py`. -/
def swap_element {α} [DecidableEq α] (l : List α) (e1 e2 : α) : List α :=
  if e1 ∈ l ∧ e2 ∉ l then removeFirst l e1 ++ [e2]
  else if e2 ∈ l ∧ e1 ∉ l then removeFirst l e2 ++ [e1]
  else l

/-- A circuit: a qubit count and an ordered gate list. -/
structure Circuit where
  qubits : Nat
  gates : List Gate
deriving DecidableEq, Repr

/-- `stats` from `optimize.py`: the metric triple
(Hadamard count, two-qubit-gate count, non-Pauli-phase-gate count). -/
def stats (c : Circuit) : Nat × Nat × Nat :=
  c.gates.foldl
    (fun acc g =>
      if g.name = .cz ∨ g.name = .cnot then (acc.1, acc.2.1 + 1, acc.2.2)
      else if g.name = .had then (acc.1 + 1, acc.2.1, acc.2.2)
      else if g.name ≠ .nott ∧ g.phase ≠ 1 then (acc.1, acc.2.1, acc.2.2 + 1)
      else acc)
    (0, 0, 0)

/-- Read a per-qubit gate-list map (a Python `{qubit: [gates]}` dictionary
holding every qubit `0 .. qubits-1`). -/
def getQ (m : List (List Gate)) (q : Nat) : List Gate := m.getD q []

/-- Write one entry of a per-qubit gate-list map. -/
def setQ (m : List (List Gate)) (q : Nat) (v : List Gate) : List (List Gate) := m.set q v

/-- Python `l[:-k]` (note `l[:-0]` is the empty list). -/
def pysliceNeg {α} (l : List α) (k : Nat) : List α :=
  if k = 0 then [] else l.take (l.length - k)

/-- Python `l.insert(-k, x)` for `1 ≤ k ≤ l.length`: insert before position
`l.length - k`. -/
def pyinsertNeg {α} (l : List α) (k : Nat) (x : α) : List α :=
  l.take (l.length - k) ++ x :: l.drop (l.length - k)

/-- The mutable state of one forward pass of the `Optimizer`
(`self.gates`, `self.available`, `self.availty`, the three pending-correction
sets, the wire permutation and the pairing-index counter).  The per-qubit
dictionaries are lists of length `qubits` indexed by qubit. -/
structure PassState where
  qubits : Nat
  minimize_czs : Bool
  gates : List (List Gate)
  available : List (List Gate)
  availty : List Nat
  hadamards : List Nat
  nots : List Nat
  zs : List Nat
  permutation : List Nat
  gcount : Nat
deriving Repr

/-- Fresh state at the start of `parse_forward`. -/
def initState (qubits : Nat) (minimize : Bool) : PassState :=
  { qubits := qubits
    minimize_czs := minimize
    gates := List.replicate qubits []
    available := List.replicate qubits []
    availty := List.replicate qubits 1
    hadamards := []
    nots := []
    zs := []
    permutation := List.range qubits
    gcount := 0 }

/-- `self.availty[q]`. -/
def PassState.ty (st : PassState) (q : Nat) : Nat := st.availty.getD q 1

/-- `self.gates[q]`. -/
def PassState.gs (st : PassState) (q : Nat) : List Gate := getQ st.gates q

/-- `self.available[q]`. -/
def PassState.av (st : PassState) (q : Nat) : List Gate := getQ st.available q

/-- `next(i for i in self.permutation if self.permutation[i] == x)`:
the preimage of `x` under the wire permutation (the Python generator raises
when no preimage exists; that cannot happen for in-range qubits since the
permutation is a bijection of `0..qubits-1`, and we default to `x`). -/
def invPerm (st : PassState) (x : Nat) : Nat :=
  (((List.range st.qubits).find? fun i => decide (st.permutation.getD i i = x)).getD x)

namespace Optimizer

/-- `Optimizer.add_hadamard`. -/
def add_hadamard (st : PassState) (t : Nat) : PassState :=
  let h : Gate := { HADG t with index := st.gcount }
  { st with
    gcount := st.gcount + 1
    gates := setQ st.gates t (st.gs t ++ [h])
    hadamards := removeFirst st.hadamards t
    available := setQ st.available t []
    availty := st.availty.set t 1 }

/-- `Optimizer.add_gate`. -/
def add_gate (st : PassState) (t : Nat) (g : Gate) : PassState :=
  let g' : Gate := { g with index := st.gcount }
  { st with
    gcount := st.gcount + 1
    gates := setQ st.gates t (st.gs t ++ [g'])
    available := setQ st.available t (st.av t ++ [g']) }

/-- The inner backward search of `add_cz`: walk `reversed(gates[t][:-len(available[t])])`
and report whether the candidate CNOT `g` is reached through CNOTs with target `t` only. -/
def czBlockerSearch (g : Gate) (t : Nat) : List Gate → Bool
  | [] => false
  | h :: hs =>
    if ¬(h.name = .cnot ∧ h.target = t) then false
    else if h = g then true
    else czBlockerSearch g t hs

/-- Whether a CNOT `g` in `available[c]` matches the CZ-minimization rewrite
for the (control, target) pair `(c, t)` of the incoming CZ. -/
def czCnotCandidate (st : PassState) (c t : Nat) (g : Gate) : Bool :=
  decide (g.name = .cnot ∧ g.control = c ∧ g.target = t) &&
    (if st.ty t = 2 then decide (g ∈ st.av t)
     else czBlockerSearch g t ((pysliceNeg (st.gs t) (st.av t).length).reverse))

/-- The `minimize_czs` search of `add_cz` over the two orientations. -/
def findCnotMatch (st : PassState) (t1 t2 : Nat) : Option Gate :=
  match (st.av t1).find? (czCnotCandidate st t1 t2) with
  | some g => some g
  | none => (st.av t2).find? (czCnotCandidate st t2 t1)

/-- `Optimizer.add_cz`.  Note the faithful reproduction of the source line
`self.availty[t] == 1` (a comparison used as a statement, hence a no-op):
in the rewrite branch only `available[t]` is cleared while `availty[t]` keeps
its old value. -/
def add_cz (st : PassState) (cz : Gate) : PassState :=
  let t1 := cz.control
  let t2 := cz.target
  match (if st.minimize_czs then findCnotMatch st t1 t2 else none) with
  | some g =>
    -- CNOT-CZ = (S* x id) CNOT (S x S)
    let t := g.target
    let c := g.control
    -- `self.availty[t] == 1` in the source is a no-op comparison; only the
    -- window is cleared.
    let st :=
      if st.ty t = 2 then { st with available := setQ st.available t [] } else st
    let st := { st with gates := setQ st.gates t (removeFirst (st.gs t) g) }
    let st := { st with gates := setQ st.gates c (removeFirst (st.gs c) g) }
    let st := { st with available := setQ st.available c (removeFirst (st.av c) g) }
    let s1 : Gate := { SG t true with index := st.gcount }
    let st := { st with gcount := st.gcount + 1 }
    let st :=
      if (st.av t) ≠ [] then
        let st := { st with gates := setQ st.gates t (pyinsertNeg (st.gs t) (st.av t).length s1) }
        { st with gates := setQ st.gates t (pyinsertNeg (st.gs t) (st.av t).length g) }
      else
        { st with gates := setQ st.gates t (st.gs t ++ [s1, g]) }
    let s2 : Gate := { SG t false with index := st.gcount }
    let st := { st with gcount := st.gcount + 1 }
    let st := { st with gates := setQ st.gates t (st.gs t ++ [s2]) }
    let st := { st with available := setQ st.available t (st.av t ++ [s2]) }
    let s3 : Gate := { SG c false with index := st.gcount }
    let st := { st with gcount := st.gcount + 1 }
    let st := { st with available := setQ st.available c (st.av c ++ [g, s3]) }
    { st with gates := setQ st.gates c (st.gs c ++ [g, s3]) }
  | none =>
    let st :=
      if st.ty t1 = 2 then
        { st with available := setQ st.available t1 [], availty := st.availty.set t1 1 }
      else st
    let st :=
      if st.ty t2 = 2 then
        { st with available := setQ st.available t2 [], availty := st.availty.set t2 1 }
      else st
    match (st.av t1).reverse.find?
        (fun g => decide (g.name = .cz ∧ g.control = t1 ∧ g.target = t2)) with
    | some g =>
      if g ∈ st.av t2 then
        let st := { st with available := setQ st.available t1 (removeFirst (st.av t1) g) }
        let st := { st with gates := setQ st.gates t1 (removeFirst (st.gs t1) g) }
        let st := { st with available := setQ st.available t2 (removeFirst (st.av t2) g) }
        { st with gates := setQ st.gates t2 (removeFirst (st.gs t2) g) }
      else
        let cz' : Gate := { cz with index := st.gcount }
        let st := { st with gcount := st.gcount + 1 }
        let st := { st with gates := setQ st.gates t1 (st.gs t1 ++ [cz']) }
        let st := { st with gates := setQ st.gates t2 (st.gs t2 ++ [cz']) }
        let st := { st with available := setQ st.available t1 (st.av t1 ++ [cz']) }
        { st with available := setQ st.available t2 (st.av t2 ++ [cz']) }
    | none =>
      let cz' : Gate := { cz with index := st.gcount }
      let st := { st with gcount := st.gcount + 1 }
      let st := { st with gates := setQ st.gates t1 (st.gs t1 ++ [cz']) }
      let st := { st with gates := setQ st.gates t2 (st.gs t2 ++ [cz']) }
      let st := { st with available := setQ st.available t1 (st.av t1 ++ [cz']) }
      { st with available := setQ st.available t2 (st.av t2 ++ [cz']) }

/-- `Optimizer.add_cnot`. -/
def add_cnot (st : PassState) (cnot : Gate) : PassState :=
  let c := cnot.control
  let t := cnot.target
  let anti : Option Gate :=
    if st.ty c = 2 ∧ st.ty t = 1 then
      match (st.av c).reverse.find?
          (fun g => decide (g.name = .cnot ∧ g.control = t ∧ g.target = c)) with
      | some g => if g ∈ st.av t then some g else none
      | none => none
    else none
  match anti with
  | some g =>
    -- CNOT(t,c) CNOT(c,t) = CNOT(c,t) SWAP(c,t)
    let st := { st with gates := setQ st.gates c (removeFirst (st.gs c) g) }
    let st := { st with gates := setQ st.gates t (removeFirst (st.gs t) g) }
    let st := { st with availty := (st.availty.set c 1).set t 2 }
    let cnot' : Gate := { cnot with index := st.gcount }
    let st := { st with gcount := st.gcount + 1 }
    let st := { st with gates := setQ st.gates c (st.gs c ++ [cnot']) }
    let st := { st with gates := setQ st.gates t (st.gs t ++ [cnot']) }
    let st := { st with available := setQ (setQ st.available c [cnot']) t [cnot'] }
    let a := st.permutation.getD c c
    let b := st.permutation.getD t t
    let st := { st with permutation := (st.permutation.set c b).set t a }
    { st with
      hadamards := swap_element st.hadamards t c
      nots := swap_element st.nots t c
      zs := swap_element st.zs t c }
  | none =>
    let st :=
      if st.ty c = 2 then
        { st with available := setQ st.available c [], availty := st.availty.set c 1 }
      else st
    let st :=
      if st.ty t = 1 then
        { st with available := setQ st.available t [], availty := st.availty.set t 2 }
      else st
    match (st.av c).reverse.find?
        (fun g => decide (g.name = .cnot ∧ g.control = c ∧ g.target = t)) with
    | some g =>
      if g ∈ st.av t then
        -- CNOT(c,t) CNOT(c,t) = id
        let st := { st with available := setQ st.available c (removeFirst (st.av c) g) }
        let st := { st with gates := setQ st.gates c (removeFirst (st.gs c) g) }
        let st := { st with available := setQ st.available t (removeFirst (st.av t) g) }
        { st with gates := setQ st.gates t (removeFirst (st.gs t) g) }
      else
        let cnot' : Gate := { cnot with index := st.gcount }
        let st := { st with gcount := st.gcount + 1 }
        let st := { st with gates := setQ st.gates c (st.gs c ++ [cnot']) }
        let st := { st with gates := setQ st.gates t (st.gs t ++ [cnot']) }
        let st := { st with available := setQ st.available c (st.av c ++ [cnot']) }
        { st with available := setQ st.available t (st.av t ++ [cnot']) }
    | none =>
      let cnot' : Gate := { cnot with index := st.gcount }
      let st := { st with gcount := st.gcount + 1 }
      let st := { st with gates := setQ st.gates c (st.gs c ++ [cnot']) }
      let st := { st with gates := setQ st.gates t (st.gs t ++ [cnot']) }
      let st := { st with available := setQ st.available c (st.av c ++ [cnot']) }
      { st with available := setQ st.available t (st.av t ++ [cnot']) }

/-- `Optimizer.parse_gate`.  Raises (`Except.error`) exactly on gate kinds the
rewriter does not support. -/
def parse_gate (st : PassState) (g0 : Gate) : Except String PassState := do
  -- g = g.copy(); remap target/control through the recorded permutation
  let g : Gate := { g0 with target := invPerm st g0.target }
  let g : Gate :=
    if g.name = .cz ∨ g.name = .cnot then { g with control := invPerm st g.control } else g
  let t := g.target
  match g.name with
  | .had =>
    let st :=
      if t ∈ st.nots ∧ t ∉ st.zs then
        { st with nots := removeFirst st.nots t, zs := st.zs ++ [t] }
      else if t ∈ st.zs ∧ t ∉ st.nots then
        { st with zs := removeFirst st.zs t, nots := st.nots ++ [t] }
      else st
    -- HAD-S-HAD detection: rewrite to S*-HAD-S*
    if (st.gs t).length > 1 then
      let glast := (st.gs t).getD ((st.gs t).length - 1) (HADG 0)
      let gprev := (st.gs t).getD ((st.gs t).length - 2) (HADG 0)
      if gprev.name = .had ∧ isZPhase glast ∧ glast.phase.den = 2 then
        let zp : Gate := { ZPhaseG t (pymod (-glast.phase) 2) with index := st.gcount }
        let st := { st with gcount := st.gcount + 1 }
        let glast' : Gate := { glast with phase := zp.phase }
        let st := { st with gates := setQ st.gates t ((st.gs t).dropLast ++ [glast']) }
        let st := { st with
          available := setQ st.available t
            ((st.av t).map fun x => if x = glast then glast' else x) }
        let st := { st with gates := setQ st.gates t (pyinsertNeg (st.gs t) 2 zp) }
        return st
      else
        return { st with hadamards := toggle_element st.hadamards t }
    else
      return { st with hadamards := toggle_element st.hadamards t }
  | .nott =>
    return { st with nots := toggle_element st.nots t }
  | .zphase =>
    let g :=
      if t ∈ st.zs then { g with phase := pymod (g.phase + 1) 2 } else g
    let st := if t ∈ st.zs then { st with zs := removeFirst st.zs t } else st
    if g.phase = 0 then return st
    let g := if t ∈ st.nots then { g with phase := pymod (-g.phase) 2 } else g
    if g.phase = 1 then
      return { st with zs := toggle_element st.zs t }
    let st := if t ∈ st.hadamards then add_hadamard st t else st
    if st.ty t = 1 ∧ (st.av t).any (fun g2 => decide (g2.name = .zphase)) = true then
      match (st.av t).find? (fun g2 => decide (g2.name = .zphase)) with
      | some g2 =>
        let st := { st with available := setQ st.available t (removeFirst (st.av t) g2) }
        let st := { st with gates := setQ st.gates t (removeFirst (st.gs t) g2) }
        let phase := pymod (g.phase + g2.phase) 2
        if phase = 1 then
          return { st with zs := toggle_element st.zs t }
        else if phase ≠ 0 then
          return add_gate st t (ZPhaseG t phase)
        else
          return st
      | none => return st
    else
      let st :=
        if st.ty t = 2 then
          { st with availty := st.availty.set t 1, available := setQ st.available t [] }
        else st
      return add_gate st t g
  | .cz =>
    let t1 := g.control
    let t2 := g.target
    let g := if t1 > t2 then { g with target := t1, control := t2 } else g
    let st := if t1 ∈ st.nots then { st with zs := toggle_element st.zs t2 } else st
    let st := if t2 ∈ st.nots then { st with zs := toggle_element st.zs t1 } else st
    let st :=
      if t1 ∈ st.hadamards ∧ t2 ∈ st.hadamards then
        add_hadamard (add_hadamard st t1) t2
      else st
    if t1 ∉ st.hadamards ∧ t2 ∉ st.hadamards then
      return add_cz st g
    else if t1 ∈ st.hadamards then
      return add_cnot st (CNOTG t2 t1)
    else
      return add_cnot st (CNOTG t1 t2)
  | .cnot =>
    let c := g.control
    let st := if c ∈ st.nots then { st with nots := toggle_element st.nots t } else st
    let st := if t ∈ st.zs then { st with zs := toggle_element st.zs c } else st
    if c ∈ st.hadamards ∧ t ∈ st.hadamards then
      return add_cnot st { g with control := t, target := c }
    else if c ∉ st.hadamards ∧ t ∉ st.hadamards then
      return add_cnot st g
    else if t ∈ st.hadamards then
      return add_cz st (CZG (min c t) (max c t))
    else
      return add_cnot (add_hadamard st c) g
  | .xphase => throw "Unknown gate"
  | .swapg => throw "Unknown gate"

end Optimizer

/-! ## Topological scheduler (`Optimizer.topological_sort_gates`)

The Python method consumes `self.gates` (a qubit-indexed dictionary where every
two-qubit gate appears twice, paired by `index`) inside a `while
any(self.gates.values())` loop; the loop is given fuel equal to the total
number of stored gates plus one — every terminating Python run removes at
least one gate per sweep, and a sweep that removes nothing repeats forever
(the state is a deterministic function of the per-qubit lists and the
`available_indices` set is reset at the top of each sweep), which the model
reports as `none`. -/

/-- The threaded state of the scheduler: the per-qubit lists, the
`available_indices` set (a duplicate-free list) and the output. -/
structure TopoAcc where
  gmap : List (List Gate)
  avail : List Nat
  output : List Gate
deriving Repr

namespace Optimizer

/-- The look-ahead `for i, g2 in enumerate(gs[1:])` loop of
`topological_sort_gates`: scan the snapshot of the tail, emitting commuting
single-qubit phases and already-available paired gates, recording the
positions to pop. -/
def topoLookahead (q ty : Nat) :
    List Gate → Nat → TopoAcc → List Nat → TopoAcc × List Nat
  | [], _, acc, removed => (acc, removed)
  | g2 :: rest, i, acc, removed =>
    if (ty = 1 ∧ isZPhase g2) ∨ (ty = 2 ∧ isXPhase g2) then
      topoLookahead q ty rest (i + 1)
        { acc with output := acc.output ++ [g2] } (removed ++ [i])
    else if ¬(g2.name = .cz ∨ g2.name = .cnot) then (acc, removed)
    else if (ty = 1 ∧ (g2.name = .cz ∨ g2.control = q)) ∨
        (ty = 2 ∧ g2.name = .cnot ∧ g2.target = q) then
      if g2.index ∈ acc.avail then
        let q2 := if q = g2.control then g2.target else g2.control
        topoLookahead q ty rest (i + 1)
          { gmap := setQ acc.gmap q2 (removeFirst (getQ acc.gmap q2) g2)
            avail := removeFirst acc.avail g2.index
            output := acc.output ++ [g2] } (removed ++ [i])
      else
        topoLookahead q ty rest (i + 1)
          { acc with avail := acc.avail ++ [g2.index] } removed
    else (acc, removed)

/-- `for i in reversed(remove): gs.pop(i+1)`: drop the recorded positions from
the snapshot of the tail. -/
def removePositions {α} (l : List α) (ps : List Nat) : List α :=
  (l.enum.filter fun p => decide (p.1 ∉ ps)).map Prod.snd

/-- The inner `while gs:` loop of `topological_sort_gates` for one qubit.
Each iteration pops the head of `gmap q` or breaks, so fuel
`(gmap q).length + 1` is always sufficient. -/
def topoQubit : Nat → Nat → TopoAcc → TopoAcc
  | 0, _, acc => acc
  | fuel + 1, q, acc =>
    match getQ acc.gmap q with
    | [] => acc
    | g :: gs =>
      if ¬(g.name = .cz ∨ g.name = .cnot) then
        topoQubit fuel q
          { acc with gmap := setQ acc.gmap q gs, output := acc.output ++ [g] }
      else if g.index ∈ acc.avail then
        let q2 := if q = g.control then g.target else g.control
        topoQubit fuel q
          { gmap := setQ (setQ acc.gmap q2 (removeFirst (getQ acc.gmap q2) g)) q gs
            avail := removeFirst acc.avail g.index
            output := acc.output ++ [g] }
      else
        let ty := if g.name = .cz ∨ g.control = q then 1 else 2
        let r := topoLookahead q ty gs 0 { acc with avail := acc.avail ++ [g.index] } []
        { r.1 with gmap := setQ r.1.gmap q (g :: removePositions gs r.2) }

/-- One sweep `for q, gs in self.gates.items():` over the qubits in ascending
order. -/
def topoSweep (n : Nat) (acc : TopoAcc) : TopoAcc :=
  (List.range n).foldl (fun a q => topoQubit ((getQ a.gmap q).length + 1) q a) acc

/-- The outer `while any(self.gates.values())` loop; `available_indices` is
reset at the top of every sweep. -/
def topoLoop : Nat → Nat → TopoAcc → Option (List Gate)
  | 0, _, _ => none
  | fuel + 1, n, acc =>
    if (List.range n).all (fun q => (getQ acc.gmap q).isEmpty) then some acc.output
    else topoLoop fuel n { topoSweep n { acc with avail := [] } with avail := [] }

/-- Total number of gate entries stored in the per-qubit lists. -/
def totalGates (st : PassState) : Nat := (st.gates.map List.length).sum

/-- `Optimizer.topological_sort_gates`; `none` models a diverging run. -/
def topological_sort_gates (st : PassState) : Option (List Gate) :=
  topoLoop (totalGates st + 1) st.qubits ⟨st.gates, [], []⟩

end Optimizer

/-- Modelled from the spec: `permutation_as_swaps` (from `pyzx/extract.py`,
not part of the given source).  Given a mapping qubit → qubit representing a
permutation on `0..n-1`, returns an ordered sequence of `(a, b)` pairs such
that applying `SWAP(a, b)` in that order realizes the permutation.  Modelled
by straight selection: walk positions in ascending order, and when position
`i` does not hold `i`, swap it with the position currently holding `i`.  In
particular the identity permutation yields no swaps. -/
def permutation_as_swaps (perm : List Nat) (n : Nat) : List (Nat × Nat) :=
  ((List.range n).foldl
    (fun (acc : List Nat × List (Nat × Nat)) i =>
      let a := acc.1
      if a.getD i 0 = i then acc
      else
        let j := a.findIdx fun x => decide (x = i)
        ((a.set i (a.getD j 0)).set j (a.getD i 0), acc.2 ++ [(i, j)]))
    ((List.range n).map fun i => perm.getD i i, [])).2

/-- Modelled from the spec: `Gate.to_basic_gates` on the correction gates
(`NOT` and `SWAP`); a SWAP decomposes into three alternating CNOTs, a NOT is
already basic. -/
def to_basic_gates (g : Gate) : List Gate :=
  if g.name = .swapg then
    [CNOTG g.control g.target, CNOTG g.target g.control, CNOTG g.control g.target]
  else [g]

namespace Optimizer

/-- `Optimizer.parse_forward`: one forward pass.  Returns the rescheduled
circuit and the residual correction (trailing NOTs and SWAPs). -/
def parse_forward (qubits : Nat) (minimize : Bool) (circuitGates : List Gate) :
    Except String (Circuit × List Gate) :=
  match circuitGates.foldlM parse_gate (initState qubits minimize) with
  | .error e => .error e
  | .ok st =>
    let st := st.hadamards.foldl add_hadamard st
    let st := st.zs.foldl
      (fun s t =>
        { s with
          gcount := s.gcount + 1
          gates := setQ s.gates t (s.gs t ++ [{ ZG t with index := s.gcount }]) }) st
    match topological_sort_gates st with
    | none => .error "topological sort made no progress"
    | some out =>
      let correction := st.nots.map NOTG ++
        (permutation_as_swaps st.permutation st.qubits).map fun p => SWAPG p.1 p.2
      .ok (⟨qubits, out⟩, correction)

/-- `all(s1 <= s2 for s1, s2 in zip(count, s))`. -/
def countLE (a b : Nat × Nat × Nat) : Bool :=
  decide (a.1 ≤ b.1) && decide (a.2.1 ≤ b.2.1) && decide (a.2.2 ≤ b.2.2)

/-- The body of one iteration of the `while True:` loop of
`Optimizer.parse_circuit` up to the comparison: reverse, pass, extend the
correction, reverse back, pass again.  Returns (the gates for the next
iteration with the second correction materialized, the second pass's circuit,
the second pass's correction). -/
def parse_circuit_step (qubits : Nat) (minimize : Bool) (gates : List Gate) :
    Except String (List Gate × Circuit × List Gate) :=
  match parse_forward qubits minimize gates.reverse with
  | .error e => .error e
  | .ok (c1, corr1) =>
    match parse_forward qubits minimize ((c1.gates ++ corr1.flatMap to_basic_gates).reverse) with
    | .error e => .error e
    | .ok (c2, corr2) => .ok (c2.gates ++ corr2.flatMap to_basic_gates, c2, corr2)

/-- The `while True:` loop of `Optimizer.parse_circuit`.  Each iteration
performs one reversed+forward pair of passes (`parse_circuit_step`); the
returned `Nat` is the final value of the iteration counter `i`.  The loop
provably breaks after at most `max 2 m` iterations, so the fuel `m + 3`
supplied by `parse_circuit` can never run out. -/
def parse_circuit_loop (qubits m : Nat) :
    Nat → List Gate → Nat × Nat × Nat → Bool → Nat →
    Except String (List Gate × List Gate × Nat)
  | 0, _, _, _, _ => .error "parse_circuit fuel exhausted"
  | fuel + 1, gates, count, minimize, i =>
    match parse_circuit_step qubits minimize gates with
    | .error e => .error e
    | .ok (next, c2, corr2) =>
      let i' := i + 1
      let s := stats c2
      if minimize ∧ (countLE count s ∨ i' ≥ m) then
        .ok (c2.gates.map (fun g => { g with index := 0 }), corr2, i')
      else
        parse_circuit_loop qubits m fuel next s true i'

/-- `Optimizer.parse_circuit`: the Fixpoint Driver.  Returns the rewritten
body (pairing indices zeroed), the final residual correction (the
`separate_correction=True` shape) and the number of reversed+forward rounds
performed after the initial forward pass. -/
def parse_circuit (c : Circuit) (max_iterations : Nat := 1000) :
    Except String (Circuit × List Gate × Nat) :=
  match parse_forward c.qubits false c.gates with
  | .error e => .error e
  | .ok (c1, corr1) =>
    match parse_circuit_loop c.qubits max_iterations (max_iterations + 3)
        (c1.gates ++ corr1.flatMap to_basic_gates) (stats c1) false 0 with
    | .error e => .error e
    | .ok (body, corr, rounds) => .ok (⟨c.qubits, body⟩, corr, rounds)

end Optimizer

/-- `basic_optimization` on a `Circuit` input: run the Fixpoint Driver to
completion and materialize the correction (`separate_correction=False`). -/
def basic_optimization (c : Circuit) (max_iterations : Nat := 1000) :
    Except String Circuit :=
  match Optimizer.parse_circuit c max_iterations with
  | .error e => .error e
  | .ok (body, corr, _) => .ok ⟨c.qubits, body.gates ++ corr.flatMap to_basic_gates⟩

/-! ## Semantics

State-vector semantics over the cyclotomic field ℚ(ζ₈), where
ζ₈ = e^{iπ/4}.  Amplitudes of all the gate kinds above with phases of
denominator dividing 4 live in this field (√2 = ζ₈ - ζ₈³), so unitary
equivalence of concrete Clifford+T circuits is decidable by evaluation. -/

/-- An element a + b ζ + c ζ² + d ζ³ of ℚ(ζ₈), with ζ⁴ = -1. -/
structure Z8 where
  c0 : ℚ
  c1 : ℚ
  c2 : ℚ
  c3 : ℚ
deriving DecidableEq, Repr

namespace Z8

def zero : Z8 := ⟨0, 0, 0, 0⟩
def one : Z8 := ⟨1, 0, 0, 0⟩

def add (x y : Z8) : Z8 := ⟨x.c0 + y.c0, x.c1 + y.c1, x.c2 + y.c2, x.c3 + y.c3⟩

def neg (x : Z8) : Z8 := ⟨-x.c0, -x.c1, -x.c2, -x.c3⟩

def mul (x y : Z8) : Z8 :=
  ⟨x.c0 * y.c0 - x.c1 * y.c3 - x.c2 * y.c2 - x.c3 * y.c1,
   x.c0 * y.c1 + x.c1 * y.c0 - x.c2 * y.c3 - x.c3 * y.c2,
   x.c0 * y.c2 + x.c1 * y.c1 + x.c2 * y.c0 - x.c3 * y.c3,
   x.c0 * y.c3 + x.c1 * y.c2 + x.c2 * y.c1 + x.c3 * y.c0⟩

/-- ζ₈ᵏ. -/
def zetaPow (k : Nat) : Z8 :=
  let k := k % 8
  if k = 0 then ⟨1, 0, 0, 0⟩
  else if k = 1 then ⟨0, 1, 0, 0⟩
  else if k = 2 then ⟨0, 0, 1, 0⟩
  else if k = 3 then ⟨0, 0, 0, 1⟩
  else if k = 4 then ⟨-1, 0, 0, 0⟩
  else if k = 5 then ⟨0, -1, 0, 0⟩
  else if k = 6 then ⟨0, 0, -1, 0⟩
  else ⟨0, 0, 0, -1⟩

/-- 1/√2 = (ζ₈ - ζ₈³)/2. -/
def invsqrt2 : Z8 := ⟨0, 1/2, 0, -1/2⟩

/-- The Galois conjugate ζ → ζ³. -/
def sig3 (x : Z8) : Z8 := ⟨x.c0, x.c3, -x.c2, x.c1⟩

/-- The Galois conjugate ζ → ζ⁵. -/
def sig5 (x : Z8) : Z8 := ⟨x.c0, -x.c1, x.c2, -x.c3⟩

/-- The Galois conjugate ζ → ζ⁷. -/
def sig7 (x : Z8) : Z8 := ⟨x.c0, -x.c3, -x.c2, -x.c1⟩

def scale (r : ℚ) (x : Z8) : Z8 := ⟨r * x.c0, r * x.c1, r * x.c2, r * x.c3⟩

/-- Field inverse via the norm to ℚ (returns 0 for 0). -/
def inv (x : Z8) : Z8 :=
  let y := mul (sig3 x) (mul (sig5 x) (sig7 x))
  let n := (mul x y).c0
  if n = 0 then zero else scale (1 / n) y

end Z8

/-- e^{iπp} as an element of ℚ(ζ₈), defined when `4p` is an integer. -/
def ephase (p : ℚ) : Option Z8 :=
  let q := 4 * p
  if q.den = 1 then some (Z8.zetaPow ((q.num % 8 + 8).toNat)) else none

/-- Index with bit `t` of `i` cleared. -/
def bitLo (i t : Nat) : Nat := if i.testBit t then i ^^^ 2 ^ t else i

/-- The action of one gate on a state vector of length `2 ^ n` (indexed by
computational-basis bitstrings; bit `t` of the index is qubit `t`).  `none`
when the gate's amplitudes fall outside ℚ(ζ₈) (phase denominator not
dividing 4). -/
def gateAction (g : Gate) (v : List Z8) : Option (List Z8) :=
  let rd := fun i => v.getD i Z8.zero
  match g.name with
  | .zphase =>
    (ephase g.phase).map fun w =>
      (List.range v.length).map fun i =>
        if i.testBit g.target then w.mul (rd i) else rd i
  | .nott => some ((List.range v.length).map fun i => rd (i ^^^ 2 ^ g.target))
  | .had => some <|
    (List.range v.length).map fun i =>
      let lo := bitLo i g.target
      let hi := lo ||| 2 ^ g.target
      if i.testBit g.target then Z8.invsqrt2.mul ((rd lo).add ((rd hi).neg))
      else Z8.invsqrt2.mul ((rd lo).add (rd hi))
  | .xphase =>
    -- H · diag(1, e^{iπp}) · H applied at qubit t
    (ephase g.phase).map fun w =>
      (List.range v.length).map fun i =>
        let lo := bitLo i g.target
        let hi := lo ||| 2 ^ g.target
        let half : Z8 := ⟨1/2, 0, 0, 0⟩
        let a := half.mul (Z8.one.add w)
        let b := half.mul (Z8.one.add w.neg)
        if i.testBit g.target then (b.mul (rd lo)).add (a.mul (rd hi))
        else (a.mul (rd lo)).add (b.mul (rd hi))
  | .cnot => some <|
    (List.range v.length).map fun i =>
      if i.testBit g.control then rd (i ^^^ 2 ^ g.target) else rd i
  | .cz => some <|
    (List.range v.length).map fun i =>
      if i.testBit g.control ∧ i.testBit g.target then (rd i).neg else rd i
  | .swapg => some <|
    (List.range v.length).map fun i =>
      if i.testBit g.control = i.testBit g.target then rd i
      else rd ((i ^^^ 2 ^ g.control) ^^^ 2 ^ g.target)

/-- Apply a gate list in circuit order (the head acts first). -/
def circuitAction : List Gate → List Z8 → Option (List Z8)
  | [], v => some v
  | g :: gs, v => (gateAction g v).bind (circuitAction gs)

/-- The matrix of a gate list on `n` qubits, as a list of columns. -/
def unitaryOf (n : Nat) (gates : List Gate) : Option (List (List Z8)) :=
  (List.range (2 ^ n)).mapM fun j =>
    circuitAction gates ((List.range (2 ^ n)).map fun i => if i = j then Z8.one else Z8.zero)

/-- First nonzero entry of a column-list matrix. -/
def firstNonzero (m : List (List Z8)) : Option Z8 :=
  m.flatten.find? fun x => decide (x ≠ Z8.zero)

/-- Equality of two matrices up to a global scalar factor (for unitary
matrices this is exactly "the same unitary action up to global phase"). -/
def matEqUpToPhase (a b : List (List Z8)) : Bool :=
  match firstNonzero a with
  | none => decide (a = b)
  | some x =>
    let mu := Z8.mul (b.flatten.getD (a.flatten.findIdx fun e => decide (e ≠ Z8.zero)) Z8.zero)
      (Z8.inv x)
    decide (b = a.map fun col => col.map (Z8.mul mu))

/-- The two gate lists denote the same unitary action (up to global phase) on
`n` qubits; `false` also when either semantics is undefined. -/
def sameAction (n : Nat) (g1 g2 : List Gate) : Bool :=
  match unitaryOf n g1, unitaryOf n g2 with
  | some a, some b => matEqUpToPhase a b
  | _, _ => false

/-! ## Concrete run of the Fixpoint Driver on a CNOT circuit

A 4-qubit, 6-CNOT circuit on which `basic_optimization` is *not* idempotent
in the metric triple: the first run returns a circuit with 10 two-qubit gates
(4 body CNOTs plus two materialized SWAPs), and running `basic_optimization`
again on that result yields only 6 two-qubit gates.  Every forward pass is
certified individually (`c2pA0` …), and the Fixpoint Driver loop is then
assembled pass by pass. -/

open Optimizer


def c2in : Circuit := ⟨4, [CNOTG 0 1, CNOTG 1 0, CNOTG 2 0, CNOTG 1 2, CNOTG 0 2, CNOTG 1 3]⟩

def c2A0 : List Gate :=
  [⟨.cnot, 0, 1, 0, 1⟩, ⟨.cnot, 1, 2, 0, 2⟩, ⟨.cnot, 2, 0, 0, 3⟩, ⟨.cnot, 2, 1, 0, 4⟩,
   ⟨.cnot, 3, 0, 0, 5⟩]

def c2K0 : List Gate := [⟨.swapg, 1, 0, 0, 0⟩]

def c2g1 : List Gate :=
  [⟨.cnot, 0, 1, 0, 1⟩, ⟨.cnot, 1, 2, 0, 2⟩, ⟨.cnot, 2, 0, 0, 3⟩, ⟨.cnot, 2, 1, 0, 4⟩,
   ⟨.cnot, 3, 0, 0, 5⟩, ⟨.cnot, 1, 0, 0, 0⟩, ⟨.cnot, 0, 1, 0, 0⟩, ⟨.cnot, 1, 0, 0, 0⟩]

def c2A1 : List Gate :=
  [⟨.cnot, 2, 1, 0, 4⟩, ⟨.cnot, 0, 2, 0, 5⟩, ⟨.cnot, 3, 1, 0, 2⟩, ⟨.cnot, 1, 2, 0, 6⟩]

def c2K1 : List Gate := [⟨.swapg, 1, 0, 0, 0⟩, ⟨.swapg, 2, 1, 0, 0⟩]

def c2A2 : List Gate :=
  [⟨.cnot, 0, 1, 0, 4⟩, ⟨.cnot, 2, 1, 0, 6⟩, ⟨.cnot, 1, 0, 0, 7⟩, ⟨.cnot, 3, 0, 0, 5⟩]

def c2K2 : List Gate := [⟨.swapg, 2, 0, 0, 0⟩, ⟨.swapg, 2, 1, 0, 0⟩]

def c2g2 : List Gate :=
  [⟨.cnot, 0, 1, 0, 4⟩, ⟨.cnot, 2, 1, 0, 6⟩, ⟨.cnot, 1, 0, 0, 7⟩, ⟨.cnot, 3, 0, 0, 5⟩,
   ⟨.cnot, 2, 0, 0, 0⟩, ⟨.cnot, 0, 2, 0, 0⟩, ⟨.cnot, 2, 0, 0, 0⟩, ⟨.cnot, 2, 1, 0, 0⟩,
   ⟨.cnot, 1, 2, 0, 0⟩, ⟨.cnot, 2, 1, 0, 0⟩]

def c2A3 : List Gate :=
  [⟨.cnot, 2, 1, 0, 5⟩, ⟨.cnot, 0, 2, 0, 6⟩, ⟨.cnot, 3, 1, 0, 4⟩, ⟨.cnot, 1, 2, 0, 7⟩]

def c2K3 : List Gate := [⟨.swapg, 1, 0, 0, 0⟩, ⟨.swapg, 2, 1, 0, 0⟩]

def c2A4 : List Gate :=
  [⟨.cnot, 0, 1, 0, 4⟩, ⟨.cnot, 2, 1, 0, 6⟩, ⟨.cnot, 1, 0, 0, 7⟩, ⟨.cnot, 3, 0, 0, 5⟩]

def c2K4 : List Gate := [⟨.swapg, 2, 0, 0, 0⟩, ⟨.swapg, 2, 1, 0, 0⟩]

def c2g3 : List Gate :=
  [⟨.cnot, 0, 1, 0, 4⟩, ⟨.cnot, 2, 1, 0, 6⟩, ⟨.cnot, 1, 0, 0, 7⟩, ⟨.cnot, 3, 0, 0, 5⟩,
   ⟨.cnot, 2, 0, 0, 0⟩, ⟨.cnot, 0, 2, 0, 0⟩, ⟨.cnot, 2, 0, 0, 0⟩, ⟨.cnot, 2, 1, 0, 0⟩,
   ⟨.cnot, 1, 2, 0, 0⟩, ⟨.cnot, 2, 1, 0, 0⟩]

def c2body : List Gate :=
  [⟨.cnot, 0, 1, 0, 0⟩, ⟨.cnot, 2, 1, 0, 0⟩, ⟨.cnot, 1, 0, 0, 0⟩, ⟨.cnot, 3, 0, 0, 0⟩]

def c2corr : List Gate := [⟨.swapg, 2, 0, 0, 0⟩, ⟨.swapg, 2, 1, 0, 0⟩]

/-- The circuit returned by the first `basic_optimization` run on `c2in`:
the four body CNOTs followed by the six CNOTs of the two materialized SWAPs. -/
def c2mid : Circuit :=
  ⟨4, [⟨.cnot, 0, 1, 0, 0⟩, ⟨.cnot, 2, 1, 0, 0⟩, ⟨.cnot, 1, 0, 0, 0⟩, ⟨.cnot, 3, 0, 0, 0⟩,
       ⟨.cnot, 2, 0, 0, 0⟩, ⟨.cnot, 0, 2, 0, 0⟩, ⟨.cnot, 2, 0, 0, 0⟩, ⟨.cnot, 2, 1, 0, 0⟩,
       ⟨.cnot, 1, 2, 0, 0⟩, ⟨.cnot, 2, 1, 0, 0⟩]⟩

/-! The second run, on `c2mid`. -/

def d2B0 : List Gate :=
  [⟨.cnot, 2, 1, 0, 1⟩, ⟨.cnot, 1, 0, 0, 2⟩, ⟨.cnot, 3, 1, 0, 3⟩]

def d2KB0 : List Gate := [⟨.swapg, 2, 0, 0, 0⟩]

def d2g1 : List Gate :=
  [⟨.cnot, 2, 1, 0, 1⟩, ⟨.cnot, 1, 0, 0, 2⟩, ⟨.cnot, 3, 1, 0, 3⟩,
   ⟨.cnot, 2, 0, 0, 0⟩, ⟨.cnot, 0, 2, 0, 0⟩, ⟨.cnot, 2, 0, 0, 0⟩]

def d2B1 : List Gate :=
  [⟨.cnot, 3, 1, 0, 2⟩, ⟨.cnot, 1, 2, 0, 3⟩, ⟨.cnot, 0, 1, 0, 4⟩]

def d2KB1 : List Gate := [⟨.swapg, 2, 0, 0, 0⟩]

def d2B2 : List Gate :=
  [⟨.cnot, 2, 1, 0, 2⟩, ⟨.cnot, 1, 0, 0, 3⟩, ⟨.cnot, 3, 1, 0, 4⟩]

def d2KB2 : List Gate := [⟨.swapg, 2, 0, 0, 0⟩]

def d2g2 : List Gate :=
  [⟨.cnot, 2, 1, 0, 2⟩, ⟨.cnot, 1, 0, 0, 3⟩, ⟨.cnot, 3, 1, 0, 4⟩,
   ⟨.cnot, 2, 0, 0, 0⟩, ⟨.cnot, 0, 2, 0, 0⟩, ⟨.cnot, 2, 0, 0, 0⟩]

def d2B3 : List Gate :=
  [⟨.cnot, 3, 1, 0, 2⟩, ⟨.cnot, 1, 2, 0, 3⟩, ⟨.cnot, 0, 1, 0, 4⟩]

def d2KB3 : List Gate := [⟨.swapg, 2, 0, 0, 0⟩]

def d2B4 : List Gate :=
  [⟨.cnot, 2, 1, 0, 2⟩, ⟨.cnot, 1, 0, 0, 3⟩, ⟨.cnot, 3, 1, 0, 4⟩]

def d2KB4 : List Gate := [⟨.swapg, 2, 0, 0, 0⟩]

def d2body : List Gate :=
  [⟨.cnot, 2, 1, 0, 0⟩, ⟨.cnot, 1, 0, 0, 0⟩, ⟨.cnot, 3, 1, 0, 0⟩]

def d2corr : List Gate := [⟨.swapg, 2, 0, 0, 0⟩]

/-- The circuit returned by the second `basic_optimization` run: only 6
two-qubit gates, strictly fewer than the 10 of `c2mid`. -/
def c2out : Circuit :=
  ⟨4, [⟨.cnot, 2, 1, 0, 0⟩, ⟨.cnot, 1, 0, 0, 0⟩, ⟨.cnot, 3, 1, 0, 0⟩,
       ⟨.cnot, 2, 0, 0, 0⟩, ⟨.cnot, 0, 2, 0, 0⟩, ⟨.cnot, 2, 0, 0, 0⟩]⟩

/-! ## Greedy Block Extractor (`greedy_consume_gates`)

The per-qubit gate-list structure of the block extractor is a Python
dictionary whose *insertion order* changes over the Phase-Block Driver's
iterations (it is rebuilt as `{inverse[t]: gs for t, gs in gates.items()}`),
so it is embedded as an association list `List (Nat × List Gate)` iterated in
order. -/

/-- Read an association-list entry (`gates[q]`, present for `q < qubits`). -/
def aget (m : List (Nat × List Gate)) (q : Nat) : List Gate :=
  ((m.find? fun e => decide (e.1 = q)).map Prod.snd).getD []

/-- Write an association-list entry. -/
def aset (m : List (Nat × List Gate)) (q : Nat) (v : List Gate) : List (Nat × List Gate) :=
  m.map fun e => if e.1 = q then (e.1, v) else e

/-- The scan phase of one `greedy_consume_gates` iteration over one qubit's
list (`for g in gs:` with the types already determined): collect
`to_be_appended` and `available`. -/
def greedyScanQubit (q : Nat) (ty : Nat) :
    List Gate → List Gate → List Nat → Option Gate → (List Gate × List Nat × Option Gate)
  | [], app, avail, hb => (app, avail, hb)
  | g :: gs, app, avail, _ =>
    if g.name = .had then (app, avail, some g)
    else if isZPhase g ∨ g.name = .cz then
      if ty = 1 then
        if g.name = .cz then
          if g.index ∈ avail then greedyScanQubit q ty gs (app ++ [g]) avail none
          else greedyScanQubit q ty gs app (avail ++ [g.index]) none
        else greedyScanQubit q ty gs (app ++ [g]) avail none
      else (app, avail, none)
    else -- gate is a CNOT
      if (ty = 1 ∧ g.target = q) ∨ (ty = 2 ∧ g.control = q) then (app, avail, none)
      else
        if g.index ∈ avail then greedyScanQubit q ty gs (app ++ [g]) avail none
        else greedyScanQubit q ty gs app (avail ++ [g.index]) none

/-- State of one iteration of the `while True:` loop of
`greedy_consume_gates`: the `had_blocked` mapping (in encounter order),
`to_be_appended`, `available` and `gatetype`. -/
structure GreedyIter where
  had_blocked : List (Nat × Gate)
  to_be_appended : List Gate
  available : List Nat
  gatetype : Nat → Nat

/-- The first `for q, gs in gates.items():` loop of one iteration. -/
def greedyCollect (gates : List (Nat × List Gate)) : GreedyIter :=
  gates.foldl
    (fun acc e =>
      let q := e.1
      match e.2 with
      | [] => acc
      | g :: _ =>
        if g.name = .had then { acc with had_blocked := acc.had_blocked ++ [(q, g)] }
        else
          let ty :=
            if isZPhase g ∨ g.name = .cz then 1
            else if g.control = q then 1 else 2
          let r := greedyScanQubit q ty e.2 acc.to_be_appended acc.available none
          { had_blocked :=
              match r.2.2 with
              | some h => acc.had_blocked ++ [(q, h)]
              | none => acc.had_blocked
            to_be_appended := r.1
            available := r.2.1
            gatetype := fun j => if j = q then ty else acc.gatetype j })
    { had_blocked := [], to_be_appended := [], available := [], gatetype := fun _ => 0 }

/-- Remove an appended gate from the per-qubit structure (once from the
target's list and, for a two-qubit gate, once from the control's). -/
def greedyRemove (gates : List (Nat × List Gate)) (g : Gate) : List (Nat × List Gate) :=
  let gates := aset gates g.target (removeFirst (aget gates g.target) g)
  if g.name = .cz ∨ g.name = .cnot then
    aset gates g.control (removeFirst (aget gates g.control) g)
  else gates

/-- Python `l[i+1:]` where `i = l.index(a)`: the part of the list strictly
after the first occurrence of `a`. -/
def afterFirst {α} [DecidableEq α] : List α → α → List α
  | [], _ => []
  | x :: xs, a => if x = a then xs else afterFirst xs a

/-- The scan in the `for q, had in had_blocked.items():` loop, looking past a
blocking Hadamard for commuting gates; returns the updates to `available` and
`candidates`. -/
def greedyBehindScan (q : Nat) (right_ty : Nat) :
    List Gate → List Nat → List Gate → (List Nat × List Gate)
  | [], avail, cand => (avail, cand)
  | g :: gs, avail, cand =>
    if g.name = .had then (avail, cand)
    else if isZPhase g then
      if right_ty = 1 then greedyBehindScan q right_ty gs avail cand
      else (avail, cand)
    else if (g.name = .cz ∨ g.control = q) ∧ right_ty = 2 then (avail, cand)
    else if ¬(g.name = .cz ∨ g.control = q) ∧ right_ty = 1 then (avail, cand)
    else if g.index ∉ avail then
      if g.name = .cnot then greedyBehindScan q right_ty gs (avail ++ [g.index]) cand
      else greedyBehindScan q right_ty gs avail cand
    else
      if g ∉ cand then greedyBehindScan q right_ty gs avail (cand ++ [g])
      else greedyBehindScan q right_ty gs avail cand

/-- The `for q, had in had_blocked.items():` loop: double-Hadamard
cancellation (which stops the loop) or candidate collection. -/
def greedyHadLoop (gates : List (Nat × List Gate)) (gatetype : Nat → Nat) :
    List (Nat × Gate) → List Nat → List Gate →
    (List (Nat × List Gate) × Bool × List Nat × List Gate)
  | [], avail, cand => (gates, false, avail, cand)
  | (q, had) :: rest, avail, cand =>
    let gs := afterFirst (aget gates q) had
    match gs with
    | [] => greedyHadLoop gates gatetype rest avail cand
    | g :: _ =>
      if g.name = .had then
        -- double Hadamard: remove both and break out of the loop
        let gates := aset gates q (removeFirst (removeFirst (aget gates q) had) g)
        (gates, true, avail, cand)
      else
        let right_ty :=
          if g.name = .cz ∨ isZPhase g ∨ g.control = q then 1 else 2
        let left_ty :=
          if g.name = .cz ∨ isZPhase g ∨ g.control = q then
            (if gatetype q = 0 then 2 else gatetype q)
          else
            (if gatetype q = 0 then 1 else gatetype q)
        if left_ty = right_ty then greedyHadLoop gates gatetype rest avail cand
        else
          let r := greedyBehindScan q right_ty gs avail cand
          greedyHadLoop gates gatetype rest r.1 r.2

/-- The `for g in candidates:` loop: commute a two-qubit gate across a
blocking Hadamard, converting CZ ↔ CNOT; raises on a CZ stuck behind two
Hadamards. -/
def greedyCandLoop (had_blocked : List (Nat × Gate)) :
    List Gate → List (Nat × List Gate) → List Gate → Bool →
    Except String (List (Nat × List Gate) × List Gate × Bool)
  | [], gates, block, added => .ok (gates, block, added)
  | g :: rest, gates, block, added =>
    let hb := fun q => (had_blocked.find? fun e => decide (e.1 = q)).map Prod.snd
    if g.name = .cz then
      let q :=
        match hb g.target with
        | some h => if g.index > h.index then g.target else g.control
        | none => g.control
      let q2 := if g.control = q then g.target else g.control
      match hb q2 with
      | some h2 =>
        if g.index > h2.index then
          .error "CZ behind two Hadamard gates. This is not supposed to happen"
        else
          let cnot : Gate := { CNOTG q2 q with index := g.index }
          let gates := aset gates q (removeFirst (aget gates q) g)
          let gates := aset gates q2 (removeFirst (aget gates q2) g)
          greedyCandLoop had_blocked rest gates (block ++ [cnot]) true
      | none =>
        let cnot : Gate := { CNOTG q2 q with index := g.index }
        let gates := aset gates q (removeFirst (aget gates q) g)
        let gates := aset gates q2 (removeFirst (aget gates q2) g)
        greedyCandLoop had_blocked rest gates (block ++ [cnot]) true
    else if g.name = .cnot then
      let behindT :=
        match hb g.target with
        | some h => decide (g.index > h.index)
        | none => false
      let behindC :=
        match hb g.control with
        | some h => decide (g.index > h.index)
        | none => false
      if behindT && behindC then
        let cnot : Gate := { CNOTG g.target g.control with index := g.index }
        let gates := aset gates g.target (removeFirst (aget gates g.target) g)
        let gates := aset gates g.control (removeFirst (aget gates g.control) g)
        greedyCandLoop had_blocked rest gates (block ++ [cnot]) true
      else if behindT then
        let cz : Gate := { CZG g.control g.target with index := g.index }
        let gates := aset gates g.target (removeFirst (aget gates g.target) g)
        let gates := aset gates g.control (removeFirst (aget gates g.control) g)
        greedyCandLoop had_blocked rest gates (block ++ [cz]) true
      else greedyCandLoop had_blocked rest gates block added
    else greedyCandLoop had_blocked rest gates block added

/-- One iteration of the `while True:` loop of `greedy_consume_gates`;
returns the updated structure and block, and whether to continue. -/
def greedyIteration (gates : List (Nat × List Gate)) (block : List Gate) :
    Except String (List (Nat × List Gate) × List Gate × Bool) :=
  let it := greedyCollect gates
  let gates' := it.to_be_appended.foldl greedyRemove gates
  let block' := block ++ it.to_be_appended
  if it.to_be_appended ≠ [] then .ok (gates', block', true)
  else
    let r := greedyHadLoop gates it.gatetype it.had_blocked it.available []
    if r.2.1 then .ok (r.1, block, true)
    else
      match greedyCandLoop it.had_blocked r.2.2.2 gates block false with
      | .error e => .error e
      | .ok (gates', block', added) => .ok (gates', block', added)

/-- The `while True:` loop of `greedy_consume_gates`, with fuel (every
continuing iteration removes at least one stored gate, so the fuel supplied
by `greedy_consume_gates` cannot run out on terminating Python runs). -/
def greedyLoop : Nat → List (Nat × List Gate) → List Gate →
    Except String (List (Nat × List Gate) × List Gate)
  | 0, _, _ => .error "greedy_consume_gates fuel exhausted"
  | fuel + 1, gates, block =>
    match greedyIteration gates block with
    | .error e => .error e
    | .ok (gates', block', cont) =>
      if cont then greedyLoop fuel gates' block' else .ok (gates', block')

/-- `greedy_consume_gates`: consume as many gates as possible into a
phase-polynomial block; returns (the mutated structure, the block, the popped
leading Hadamards). -/
def greedy_consume_gates (gates : List (Nat × List Gate)) (qubits : Nat) :
    Except String (List (Nat × List Gate) × List Gate × List Gate) :=
  let total := (gates.map fun e => e.2.length).sum
  match greedyLoop (total + 2) gates [] with
  | .error e => .error e
  | .ok (gates', block) =>
    let r := gates'.foldl
      (fun (acc : List (Nat × List Gate) × List Gate) e =>
        match e.2 with
        | g :: gs =>
          if g.name = .had then (aset acc.1 e.1 gs, acc.2 ++ [g]) else acc
        | [] => acc)
      (gates', [])
    .ok (r.1, block, r.2)

/-! ## Phase-Block Driver (`phase_block_optimize`)

`todd_simp` is the external Phase-Polynomial Simplifier (`pyzx/todd.py`, out
of the given source's scope); it is taken as a parameter returning a
simplified block together with a qubit relabeling. -/

/-- `{v: k for k, v in p.items()}` on a permutation list. -/
def invertPerm (p : List Nat) (n : Nat) : List Nat :=
  (List.range n).map fun v => p.findIdx fun x => decide (x = v)

/-- The `for i, g in enumerate(circuit.gates):` structure-building loop of
`phase_block_optimize`, carrying the enumeration index `i`. -/
def pbBuildGo (i : Nat) : List Gate → List (Nat × List Gate) →
    Except String (List (Nat × List Gate))
  | [], m => .ok m
  | g0 :: gs, m =>
    let g : Gate := { g0 with index := i }
    if g.name = .cnot ∨ g.name = .cz then
      pbBuildGo (i + 1) gs
        (aset (aset m g.control (aget m g.control ++ [g])) g.target (aget m g.target ++ [g]))
    else if g.name ≠ .had then
      if ¬ isZPhase g then .error "Unknown gate"
      else if ¬(g.phase.den = 1 ∨ g.phase.den = 2 ∨ g.phase.den = 4) then
        .error "This method only works on Clifford+T circuits"
      else pbBuildGo (i + 1) gs (aset m g.target (aget m g.target ++ [g]))
    else pbBuildGo (i + 1) gs (aset m g.target (aget m g.target ++ [g]))

/-- The initial per-qubit structure build of `phase_block_optimize`: rejects
non-`ZPhase` single-qubit gates other than `HAD`, and phases of denominator
other than 1, 2 or 4. -/
def pbBuild (qubits : Nat) (gs : List Gate) : Except String (List (Nat × List Gate)) :=
  pbBuildGo 0 gs ((List.range qubits).map fun i => (i, []))

/-- Build `revgates` from the pending Hadamards and the reversed previous
block, reassigning indices `0, 1, …`. -/
def pbRevgates (qubits : Nat) (hadamards block : List Gate) :
    List (Nat × List Gate) × Nat :=
  let init : List (Nat × List Gate) := (List.range qubits).map fun i => (i, [])
  let r1 := hadamards.foldl
    (fun (acc : List (Nat × List Gate) × Nat) g =>
      let g' := { g with index := acc.2 }
      (aset acc.1 g'.target (aget acc.1 g'.target ++ [g']), acc.2 + 1))
    (init, 0)
  block.reverse.foldl
    (fun (acc : List (Nat × List Gate) × Nat) g =>
      let g' := { g with index := acc.2 }
      let m := aset acc.1 g'.target (aget acc.1 g'.target ++ [g'])
      let m :=
        if g'.name = .cnot ∨ g'.name = .cz then
          aset m g'.control (aget m g'.control ++ [g'])
        else m
      (m, acc.2 + 1))
    r1

/-- Deduplicate the leftover `revgates` entries by index and sort by index in
descending order (`notparsed`). -/
def pbNotparsed (m : List (Nat × List Gate)) : List Gate :=
  let r := m.foldl
    (fun (acc : List Nat × List Gate) e =>
      e.2.foldl
        (fun (acc : List Nat × List Gate) g =>
          if g.index ∈ acc.1 then acc else (acc.1 ++ [g.index], acc.2 ++ [g]))
        acc)
    ([], [])
  r.2.mergeSort fun a b => decide (a.index ≥ b.index)

/-- Apply the relabeling returned by the simplifier to the remaining
structure: rename the keys and both qubit fields of every stored gate (in
Python each shared gate object is updated exactly once; here each of its two
stored copies receives the same update). -/
def pbRelabel (inverse : List Nat) (m : List (Nat × List Gate)) :
    List (Nat × List Gate) :=
  m.map fun e =>
    (inverse.getD e.1 e.1,
     e.2.map fun g =>
       if g.name = .cnot ∨ g.name = .cz then
         { g with control := inverse.getD g.control g.control,
                  target := inverse.getD g.target g.target }
       else { g with target := inverse.getD g.target g.target })

/-- The `while any(gates.values()):` loop of `phase_block_optimize`. -/
def pbLoop (todd : List Gate → Nat → List Gate × List Nat) (qubits : Nat) :
    Nat → List (Nat × List Gate) → List Gate → List Gate → List Gate → List Nat →
    List Gate → Except String (List Gate × List Gate × List Gate × List Gate × List Nat)
  | 0, _, _, _, _, _, _ => .error "phase_block_optimize made no progress"
  | fuel + 1, gates, block, hadamards, nots, permutation, consumed =>
    if gates.all fun e => e.2.isEmpty then
      .ok (consumed, block, hadamards, nots, permutation)
    else
      let rg := (pbRevgates qubits hadamards block).1
      match greedy_consume_gates rg qubits with
      | .error e => .error e
      | .ok (rg', revblock, had2) =>
        if hadamards.length ≠ had2.length then
          .error "Hadamards did not extract correctly"
        else
          let notparsed := pbNotparsed rg'
          let consumed := consumed ++ notparsed ++ had2
          match greedy_consume_gates gates qubits with
          | .error e => .error e
          | .ok (gates', newblock, hadamards') =>
            let block := revblock.reverse ++ newblock
            let r := todd block qubits
            let block := r.1
            let permute := r.2
            let inverse := invertPerm permute qubits
            let gates' := pbRelabel inverse gates'
            let nots := nots.map fun g =>
              { g with target := inverse.getD g.target g.target }
            let permutation := (List.range qubits).map fun i =>
              permutation.getD (permute.getD i i) 0
            pbLoop todd qubits fuel gates' block hadamards' nots permutation consumed

/-- `phase_block_optimize`, with the external simplifier `todd_simp` as the
parameter `todd`. -/
def phase_block_optimize (todd : List Gate → Nat → List Gate × List Nat)
    (c : Circuit) (pre_optimize : Bool := true) : Except String Circuit :=
  let qubits := c.qubits
  match
    (if pre_optimize then
      match parse_circuit c with
      | .error e => .error e
      | .ok (c', corr, _) => .ok (c', corr)
    else .ok (c, ([] : List Gate)) :
      Except String (Circuit × List Gate)) with
  | .error e => .error e
  | .ok (circuit, correction) =>
    match
      correction.foldlM
        (fun (acc : List Nat × List Gate) (g : Gate) =>
          if g.name = .swapg then
            let a := acc.1.getD g.control 0
            let b := acc.1.getD g.target 0
            Except.ok (ε := String) ((acc.1.set g.control b).set g.target a, acc.2)
          else if g.name = .nott then Except.ok (acc.1, acc.2 ++ [g])
          else Except.error "Illegal correction")
        (List.range qubits, ([] : List Gate)) with
    | .error e => .error e
    | .ok (perm0, nots) =>
      let permutation := invertPerm perm0 qubits
      match pbBuild qubits circuit.gates with
      | .error e => .error e
      | .ok gates =>
        let total := (gates.map fun e => e.2.length).sum
        match pbLoop todd qubits (total + 2) gates [] [] nots permutation [] with
        | .error e => .error e
        | .ok (consumed, block, hadamards, nots, permutation) =>
          let consumed := consumed ++ block ++ hadamards ++ nots
          let consumed := consumed ++
            (permutation_as_swaps permutation qubits).map fun p => SWAPG p.1 p.2
          .ok ⟨qubits, consumed.map fun g => { g with index := 0 }⟩

/-- The identity instance of the external Phase-Polynomial Simplifier: the
block is returned unchanged with the identity relabeling (a legitimate
instance of the spec's contract for `todd_simp`). -/

def todd_id : List Gate → Nat → List Gate × List Nat := fun b n => (b, List.range n)

/-! ## Concrete states for the error-handling and invariant claims -/

/-- The state reached by a CZ-minimization forward pass over
`CNOT(0,1); CZ(0,1)`: the CNOT·CZ rewrite fired, `available[1]` holds the
Z-like gate `S(1)` — but `availty[1]` is still 2 because the source line
`self.availty[t] == 1` is a no-op comparison. -/
def c4state : PassState :=
  { qubits := 2
    minimize_czs := true
    gates := [[⟨.cnot, 1, 0, 0, 0⟩, ⟨.zphase, 0, 0, 1/2, 3⟩],
              [⟨.zphase, 1, 0, 3/2, 1⟩, ⟨.cnot, 1, 0, 0, 0⟩, ⟨.zphase, 1, 0, 1/2, 2⟩]]
    available := [[⟨.cnot, 1, 0, 0, 0⟩, ⟨.zphase, 0, 0, 1/2, 3⟩],
                  [⟨.zphase, 1, 0, 1/2, 2⟩]]
    availty := [1, 2]
    hadamards := []
    nots := []
    zs := []
    permutation := [0, 1]
    gcount := 4 }

/-- Crafted per-qubit structure for the Greedy Block Extractor on which the
"CZ behind two Hadamard gates" internal check fires: the CZ's pairing index
is made available by the front scan of qubit 1 while, by index order, the CZ
sits behind the blocking Hadamards of both its qubits. -/
def c8gates : List (Nat × List Gate) :=
  [(0, [⟨.had, 0, 0, 0, 1⟩, ⟨.cz, 1, 0, 0, 5⟩]),
   (1, [⟨.cz, 1, 0, 0, 5⟩, ⟨.had, 1, 0, 0, 0⟩])]

/-! ## Supported gate kinds and the rejection of the others -/

/-- The gate kinds the Commutation-State Rewriter dispatches on. -/
def basicSupported (g : Gate) : Prop :=
  g.name = .zphase ∨ g.name = .had ∨ g.name = .nott ∨ g.name = .cnot ∨ g.name = .cz

instance (g : Gate) : Decidable (basicSupported g) := by unfold basicSupported; infer_instance

/-- The gate kinds the Phase-Block Driver's structure build accepts. -/
def pbSupported (g : Gate) : Prop :=
  (g.name = .zphase ∧ (g.phase.den = 1 ∨ g.phase.den = 2 ∨ g.phase.den = 4)) ∨
    g.name = .had ∨ g.name = .cnot ∨ g.name = .cz

instance (g : Gate) : Decidable (pbSupported g) := by unfold pbSupported; infer_instance

/-- The single-qubit symbolic circuits of the phase-fusion claim: `c7g p i` is
a Z-phase `p` on qubit 0 carrying pairing index `i`. -/
def c7g (p : ℚ) (i : Nat) : Gate := ⟨.zphase, 0, 0, p, i⟩

/-- Pass state after placing one Z-phase `p` on the single qubit. -/
def c7st1 (p : ℚ) (mz : Bool) : PassState :=
  { initState 1 mz with gates := [[c7g p 0]], available := [[c7g p 0]], gcount := 1 }

/-- Pass state holding only a pending-Z correction on qubit 0. -/
def c7stZ (mz : Bool) (n : Nat) : PassState :=
  { initState 1 mz with zs := [0], gcount := n }

/-- Pass state with everything consumed. -/
def c7stE (mz : Bool) (n : Nat) : PassState :=
  { initState 1 mz with gcount := n }

/-- Pass state after the in-window fusion produced the residual phase `r`. -/
def c7str (r : ℚ) (mz : Bool) : PassState :=
  { initState 1 mz with gates := [[c7g r 1]], available := [[c7g r 1]], gcount := 2 }

/-- State after the first placed phase with a pending Z on the wire. -/
def c7st1Z (p : ℚ) (mz : Bool) : PassState :=
  { c7st1 p mz with zs := [0] }

def c9hg : Gate := ⟨.had, 0, 0, 0, 0⟩

def c9sg : Gate := ⟨.zphase, 0, 0, ⟨1, 2, by decide, Nat.coprime_one_left 2⟩, 1⟩

def c9st : PassState :=
  { initState 1 false with gates := [[c9hg, c9sg]], available := [[c9sg]], gcount := 2 }

theorem c2pA0 : parse_forward c2in.qubits false c2in.gates = .ok (⟨4, c2A0⟩, c2K0) := by rfl

theorem c2pA1 : parse_forward 4 false c2g1.reverse = .ok (⟨4, c2A1⟩, c2K1) := by rfl

theorem c2stepA12 : parse_circuit_step 4 false c2g1 = .ok (c2g2, ⟨4, c2A2⟩, c2K2) := by
  unfold parse_circuit_step
  rw [c2pA1]
  rfl

theorem c2pA3 : parse_forward 4 true c2g2.reverse = .ok (⟨4, c2A3⟩, c2K3) := by rfl

theorem c2stepA34 : parse_circuit_step 4 true c2g2 = .ok (c2g3, ⟨4, c2A4⟩, c2K4) := by
  unfold parse_circuit_step
  rw [c2pA3]
  rfl

theorem c2it1 (fuel : Nat) :
    parse_circuit_loop 4 1000 (fuel + 1) c2g1 (0, 5, 0) false 0 =
    parse_circuit_loop 4 1000 fuel c2g2 (0, 4, 0) true 1 := by
  rw [show fuel + 1 = Nat.succ fuel from rfl, parse_circuit_loop.eq_2, c2stepA12]
  rfl

theorem c2it2 (fuel : Nat) :
    parse_circuit_loop 4 1000 (fuel + 1) c2g2 (0, 4, 0) true 1 =
    .ok (c2body, c2corr, 2) := by
  rw [show fuel + 1 = Nat.succ fuel from rfl, parse_circuit_loop.eq_2, c2stepA34]
  rfl

theorem c2loop :
    parse_circuit_loop 4 1000 (1000 + 3) c2g1 (0, 5, 0) false 0 = .ok (c2body, c2corr, 2) := by
  rw [show (1000 + 3 : Nat) = 1002 + 1 from rfl, c2it1, show (1002 : Nat) = 1001 + 1 from rfl,
    c2it2]

theorem c2pc1 : parse_circuit c2in 1000 = .ok (⟨4, c2body⟩, c2corr, 2) := by
  unfold parse_circuit
  rw [c2pA0]
  dsimp only []
  rw [show ((⟨4, c2A0⟩ : Circuit).gates ++ c2K0.flatMap to_basic_gates) = c2g1 from rfl]
  rw [show stats (⟨4, c2A0⟩ : Circuit) = (0, 5, 0) from rfl]
  rw [show c2in.qubits = 4 from rfl]
  rw [c2loop]

theorem c2run1 : basic_optimization c2in = .ok c2mid := by
  unfold basic_optimization
  rw [c2pc1]
  rfl

theorem d2pB0 : parse_forward c2mid.qubits false c2mid.gates = .ok (⟨4, d2B0⟩, d2KB0) := by rfl

theorem d2pB1 : parse_forward 4 false d2g1.reverse = .ok (⟨4, d2B1⟩, d2KB1) := by rfl

theorem d2stepB12 : parse_circuit_step 4 false d2g1 = .ok (d2g2, ⟨4, d2B2⟩, d2KB2) := by
  unfold parse_circuit_step
  rw [d2pB1]
  rfl

theorem d2pB3 : parse_forward 4 true d2g2.reverse = .ok (⟨4, d2B3⟩, d2KB3) := by rfl

theorem d2stepB34 : parse_circuit_step 4 true d2g2 = .ok (d2g2, ⟨4, d2B4⟩, d2KB4) := by
  unfold parse_circuit_step
  rw [d2pB3]
  rfl

theorem d2it1 (fuel : Nat) :
    parse_circuit_loop 4 1000 (fuel + 1) d2g1 (0, 3, 0) false 0 =
    parse_circuit_loop 4 1000 fuel d2g2 (0, 3, 0) true 1 := by
  rw [show fuel + 1 = Nat.succ fuel from rfl, parse_circuit_loop.eq_2, d2stepB12]
  rfl

theorem d2it2 (fuel : Nat) :
    parse_circuit_loop 4 1000 (fuel + 1) d2g2 (0, 3, 0) true 1 =
    .ok (d2body, d2corr, 2) := by
  rw [show fuel + 1 = Nat.succ fuel from rfl, parse_circuit_loop.eq_2, d2stepB34]
  rfl

theorem d2loop :
    parse_circuit_loop 4 1000 (1000 + 3) d2g1 (0, 3, 0) false 0 = .ok (d2body, d2corr, 2) := by
  rw [show (1000 + 3 : Nat) = 1002 + 1 from rfl, d2it1, show (1002 : Nat) = 1001 + 1 from rfl,
    d2it2]

theorem d2pc : parse_circuit c2mid 1000 = .ok (⟨4, d2body⟩, d2corr, 2) := by
  unfold parse_circuit
  rw [d2pB0]
  dsimp only []
  rw [show ((⟨4, d2B0⟩ : Circuit).gates ++ d2KB0.flatMap to_basic_gates) = d2g1 from rfl]
  rw [show stats (⟨4, d2B0⟩ : Circuit) = (0, 3, 0) from rfl]
  rw [show c2mid.qubits = 4 from rfl]
  rw [d2loop]

theorem c2run2 : basic_optimization c2mid = .ok c2out := by
  unfold basic_optimization
  rw [d2pc]
  rfl

/-! ## Bounds on the Fixpoint Driver's iteration count -/

theorem pcl_rounds_ge (q m : Nat) :
    ∀ (fuel : Nat) (gates : List Gate) count minimize i res,
      parse_circuit_loop q m fuel gates count minimize i = Except.ok res →
      i + 1 ≤ res.2.2 ∧ (minimize = false → i + 2 ≤ res.2.2) := by
  intro fuel
  induction fuel with
  | zero =>
    intro gates count mz i res h
    simp [parse_circuit_loop] at h
  | succ fuel ih =>
    intro gates count mz i res h
    rw [show fuel + 1 = Nat.succ fuel from rfl, parse_circuit_loop.eq_2] at h
    rcases hs : parse_circuit_step q mz gates with e | v
    · rw [hs] at h; simp at h
    · obtain ⟨next, c2, corr2⟩ := v
      rw [hs] at h
      dsimp only [] at h
      by_cases hc : (mz = true ∧ (countLE count (stats c2) = true ∨ i + 1 ≥ m))
      · rw [if_pos hc] at h
        obtain rfl := Except.ok.inj h
        refine ⟨?_, fun hmz => ?_⟩
        · show i + 1 ≤ i + 1
          exact le_refl _
        · rw [hmz] at hc
          exact absurd hc.1 (by simp)
      · rw [if_neg hc] at h
        have h1 := (ih next (stats c2) true (i + 1) res h).1
        exact ⟨by omega, fun _ => by omega⟩

theorem pcl_rounds_le (q m : Nat) :
    ∀ (fuel : Nat) (gates : List Gate) count minimize i res,
      parse_circuit_loop q m fuel gates count minimize i = Except.ok res →
      res.2.2 ≤ max (i + 2) m ∧ (minimize = true → res.2.2 ≤ max (i + 1) m) := by
  intro fuel
  induction fuel with
  | zero =>
    intro gates count mz i res h
    simp [parse_circuit_loop] at h
  | succ fuel ih =>
    intro gates count mz i res h
    rw [show fuel + 1 = Nat.succ fuel from rfl, parse_circuit_loop.eq_2] at h
    rcases hs : parse_circuit_step q mz gates with e | v
    · rw [hs] at h; simp at h
    · obtain ⟨next, c2, corr2⟩ := v
      rw [hs] at h
      dsimp only [] at h
      by_cases hc : (mz = true ∧ (countLE count (stats c2) = true ∨ i + 1 ≥ m))
      · rw [if_pos hc] at h
        obtain rfl := Except.ok.inj h
        refine ⟨?_, fun _ => ?_⟩
        · show i + 1 ≤ max (i + 2) m
          exact le_trans (by omega) (le_max_left _ _)
        · show i + 1 ≤ max (i + 1) m
          exact le_max_left _ _
      · rw [if_neg hc] at h
        have hrec := (ih next (stats c2) true (i + 1) res h).2 rfl
        refine ⟨hrec, fun hmz => ?_⟩
        have hnot : ¬(countLE count (stats c2) = true ∨ i + 1 ≥ m) := fun hx => hc ⟨hmz, hx⟩
        have hlt : i + 1 < m := by
          rcases not_or.mp hnot with ⟨_, h2⟩
          omega
        have hm : max (i + 1 + 1) m = m := Nat.max_eq_right (by omega)
        rw [hm] at hrec
        exact le_trans hrec (le_max_right _ _)

set_option maxHeartbeats 2000000 in
theorem parse_gate_ok (st : PassState) (g : Gate) (h : basicSupported g) :
    ∃ st', Optimizer.parse_gate st g = Except.ok st' := by
  unfold Optimizer.parse_gate
  rcases h with h | h | h | h | h <;> simp [h] <;>
    (repeat' split) <;> exact ⟨_, rfl⟩

theorem parse_gate_unsupported (st : PassState) (g : Gate) (h : ¬ basicSupported g) :
    Optimizer.parse_gate st g = Except.error "Unknown gate" := by
  unfold basicSupported at h
  push_neg at h
  unfold Optimizer.parse_gate
  rcases hn : g.name <;> simp [hn] at h ⊢ <;> rfl

theorem foldlM_parse_err :
    ∀ (gs : List Gate) (st : PassState), (∃ g ∈ gs, ¬ basicSupported g) →
      gs.foldlM Optimizer.parse_gate st = Except.error "Unknown gate" := by
  intro gs
  induction gs with
  | nil => intro st h; simp at h
  | cons g gs ih =>
    intro st h
    obtain ⟨w, hw, hns⟩ := h
    by_cases hg : basicSupported g
    · obtain ⟨st', hst⟩ := parse_gate_ok st g hg
      have hwtail : w ∈ gs := by
        rcases List.mem_cons.mp hw with rfl | hh
        · exact absurd hg hns
        · exact hh
      have := ih st' ⟨w, hwtail, hns⟩
      simp only [List.foldlM_cons, hst]
      simpa using this
    · simp only [List.foldlM_cons, parse_gate_unsupported st g hg]
      rfl

theorem parse_forward_err (q : Nat) (mz : Bool) (gs : List Gate)
    (h : ∃ g ∈ gs, ¬ basicSupported g) :
    Optimizer.parse_forward q mz gs = Except.error "Unknown gate" := by
  unfold Optimizer.parse_forward
  rw [foldlM_parse_err gs _ h]

theorem parse_circuit_err (c : Circuit) (m : Nat)
    (h : ∃ g ∈ c.gates, ¬ basicSupported g) :
    Optimizer.parse_circuit c m = Except.error "Unknown gate" := by
  unfold Optimizer.parse_circuit
  rw [parse_forward_err _ _ _ h]

theorem basic_optimization_err (c : Circuit) (m : Nat)
    (h : ∃ g ∈ c.gates, ¬ basicSupported g) :
    basic_optimization c m = Except.error "Unknown gate" := by
  unfold basic_optimization
  rw [parse_circuit_err _ _ h]

theorem pbBuildGo_err :
    ∀ (gs : List Gate) (i : Nat) (m : List (Nat × List Gate)),
      (∃ g ∈ gs, ¬ pbSupported g) →
      ∃ e, pbBuildGo i gs m = Except.error e := by
  intro gs
  induction gs with
  | nil => intro i m h; simp at h
  | cons g gs ih =>
    intro i m h
    obtain ⟨w, hw, hns⟩ := h
    by_cases hg : pbSupported g
    · have hwtail : w ∈ gs := by
        rcases List.mem_cons.mp hw with rfl | hh
        · exact absurd hg hns
        · exact hh
      unfold pbBuildGo
      rcases hg with ⟨h1, hds⟩ | h1 | h1 | h1
      · rcases hds with hd | hd | hd <;> simp [h1, isZPhase, hd] <;>
          exact ih (i + 1) _ ⟨w, hwtail, hns⟩
      · simp [h1]
        exact ih (i + 1) _ ⟨w, hwtail, hns⟩
      · simp [h1]
        exact ih (i + 1) _ ⟨w, hwtail, hns⟩
      · simp [h1]
        exact ih (i + 1) _ ⟨w, hwtail, hns⟩
    · have hg' := hg
      unfold pbSupported at hg'
      push_neg at hg'
      unfold pbBuildGo
      rcases hn : g.name
      · have hd : ¬(g.phase.den = 1 ∨ g.phase.den = 2 ∨ g.phase.den = 4) := by
          push_neg
          exact hg'.1 hn
        simp [hn, isZPhase, hd]
      · simp [hn] at hg'
      · simp [hn, isZPhase]
      · simp [hn] at hg'
      · simp [hn] at hg'
      · simp [hn, isZPhase]
      · simp [hn, isZPhase]

theorem phase_block_err (todd : List Gate → Nat → List Gate × List Nat) (c : Circuit)
    (h : ∃ g ∈ c.gates, ¬ pbSupported g) :
    ∃ e, phase_block_optimize todd c false = Except.error e := by
  obtain ⟨e, he⟩ := pbBuildGo_err c.gates 0
    ((List.range c.qubits).map fun i => (i, [])) h
  have he2 : pbBuild c.qubits c.gates = Except.error e := by
    unfold pbBuild; exact he
  refine ⟨e, ?_⟩
  unfold phase_block_optimize
  rw [if_neg (show ¬(false = true) by simp)]
  dsimp only []
  simp only [List.foldlM_nil]
  rw [he2]
  rfl


theorem getQ_setQ_eq : ∀ (m : List (List Gate)) (t : Nat) (v : List Gate), t < m.length →
    getQ (setQ m t v) t = v
  | [], _, _, h => absurd h (by simp)
  | _ :: _, 0, _, _ => rfl
  | _ :: xs, t + 1, v, h => getQ_setQ_eq xs t v (by simpa using h)

theorem setQ_setQ (m : List (List Gate)) (t : Nat) (a b : List Gate) :
    setQ (setQ m t a) t b = setQ m t b := by
  unfold setQ
  exact List.set_set a b m t

/-- Claim C9: when the Commutation-State Rewriter processes a Hadamard on qubit `t`
whose two most recently placed gates on `t` are a Hadamard immediately followed by a
Z-phase of denominator 2, and `t` has no pending corrections, it rewrites the placed
suffix `… HAD S` into `… S' HAD S'` with `S' = -S mod 2` (so the incoming Hadamard is
absorbed: only the one placed Hadamard remains), updates the available window's copy
of the phase gate, and leaves the pending-Hadamard set untouched. -/
theorem C9_hsh (st : PassState) (t : Nat) (pre : List Gate) (h s : Gate)
    (hqlen : t < st.gates.length)
    (hperm : invPerm st t = t)
    (hg : st.gs t = pre ++ [h, s])
    (hh : h.name = .had) (hs : isZPhase s) (hden : s.phase.den = 2)
    (hn : t ∉ st.nots) (hz : t ∉ st.zs) (hhad : t ∉ st.hadamards) :
    Optimizer.parse_gate st (HADG t) =
      Except.ok { st with
        gcount := st.gcount + 1
        gates := setQ st.gates t
          (pre ++ [{ ZPhaseG t (pymod (-s.phase) 2) with index := st.gcount }, h,
            { s with phase := pymod (-s.phase) 2 }])
        available := setQ st.available t
          ((st.av t).map fun x =>
            if x = s then { s with phase := pymod (-s.phase) 2 } else x) } := by
  unfold Optimizer.parse_gate
  dsimp only [HADG]
  rw [if_neg (show ¬(GName.had = GName.cz ∨ GName.had = GName.cnot) by decide)]
  dsimp only []
  rw [hperm]
  rw [if_neg (show ¬(t ∈ st.nots ∧ t ∉ st.zs) from fun hx => hn hx.1),
    if_neg (show ¬(t ∈ st.zs ∧ t ∉ st.nots) from fun hx => hz hx.1)]
  have hlen : (st.gs t).length = pre.length + 2 := by rw [hg]; simp
  rw [if_pos (show (st.gs t).length > 1 by omega)]
  have hgetlast : (st.gs t).getD ((st.gs t).length - 1)
      { name := GName.had, target := 0, control := 0, phase := 0, index := 0 } = s := by
    rw [hg]
    rw [show (pre ++ [h, s]).length - 1 = pre.length + 1 from by simp]
    rw [List.getD_append_right _ _ _ _ (by simp)]
    simp
  have hgetprev : (st.gs t).getD ((st.gs t).length - 2)
      { name := GName.had, target := 0, control := 0, phase := 0, index := 0 } = h := by
    rw [hg]
    rw [show (pre ++ [h, s]).length - 2 = pre.length from by simp]
    rw [List.getD_append_right _ _ _ _ (by simp)]
    simp
  rw [hgetlast, hgetprev]
  rw [if_pos ⟨hh, hs, hden⟩]
  have hdrop : (st.gs t).dropLast = pre ++ [h] := by
    rw [hg, show pre ++ [h, s] = (pre ++ [h]) ++ [s] from by simp, List.dropLast_concat]
  dsimp only [PassState.gs, PassState.av, ZPhaseG] at hdrop ⊢
  rw [hdrop]
  rw [getQ_setQ_eq st.gates t _ hqlen]
  have hins : ∀ (x y z : Gate), pyinsertNeg (pre ++ [x] ++ [y]) 2 z = pre ++ [z, x, y] := by
    intro x y z
    unfold pyinsertNeg
    rw [List.append_assoc]
    rw [show (pre ++ ([x] ++ [y])).length - 2 = pre.length from by simp]
    rw [List.take_left' rfl, List.drop_left' rfl]
    rfl
  rw [hins, setQ_setQ]
  rfl

theorem ratFloor_eq (q : ℚ) : Rat.floor q = ⌊q⌋ := rfl

theorem pymod_two_self {x : ℚ} (h0 : 0 ≤ x) (h2 : x < 2) : pymod x 2 = x := by
  unfold pymod
  rw [ratFloor_eq, show ⌊x / 2⌋ = 0 from Int.floor_eq_zero_iff.mpr
    ⟨by linarith, by linarith⟩]
  push_cast
  ring

theorem pymod_two_sub {x : ℚ} (h0 : 2 ≤ x) (h4 : x < 4) : pymod x 2 = x - 2 := by
  unfold pymod
  rw [ratFloor_eq, show ⌊x / 2⌋ = 1 from by
    rw [Int.floor_eq_iff]
    constructor <;> push_cast <;> linarith]
  push_cast
  ring

/-- Helper for the phase-fusion analysis: the residue `pymod x 2` of a sum of
two phases in `(0, 2)`. -/
theorem pymod_two_cases {x : ℚ} (h0 : 0 < x) (h4 : x < 4) :
    0 ≤ pymod x 2 ∧ pymod x 2 < 2 ∧ (pymod x 2 = 0 ↔ x = 2) := by
  by_cases h : x < 2
  · rw [pymod_two_self (le_of_lt h0) h]
    exact ⟨le_of_lt h0, h, by constructor <;> intro hh <;> linarith⟩
  · push_neg at h
    rw [pymod_two_sub h h4]
    exact ⟨by linarith, by linarith, by constructor <;> intro hh <;> linarith⟩

set_option maxHeartbeats 1000000 in
theorem c7pg1 (p : ℚ) (i : Nat) (mz : Bool) (hp0 : p ≠ 0) (hp1 : p ≠ 1) :
    Optimizer.parse_gate (initState 1 mz) (c7g p i) = Except.ok (c7st1 p mz) := by
  unfold Optimizer.parse_gate
  simp [c7g, initState, invPerm, hp0, hp1, c7st1, Optimizer.add_gate, getQ, setQ,
    PassState.ty, PassState.gs, PassState.av, toggle_element, removeFirst]
  rfl

theorem pymod_two_two : pymod (2 : ℚ) 2 = 0 := by
  unfold pymod
  rw [ratFloor_eq]
  norm_num

set_option maxHeartbeats 1000000 in
theorem c7pg2 (i : Nat) (mz : Bool) :
    Optimizer.parse_gate (initState 1 mz) (c7g 1 i) = Except.ok (c7stZ mz 0) := by
  unfold Optimizer.parse_gate
  simp [c7g, initState, invPerm, c7stZ, getQ, setQ,
    PassState.ty, PassState.gs, PassState.av, toggle_element, removeFirst]
  rfl

set_option maxHeartbeats 1000000 in
theorem c7pg2b (p : ℚ) (i : Nat) (mz : Bool) :
    Optimizer.parse_gate (c7st1 p mz) (c7g 1 i) = Except.ok (c7st1Z p mz) := by
  unfold Optimizer.parse_gate
  dsimp only [c7g]
  rw [show invPerm (c7st1 p mz) 0 = 0 from rfl]
  simp [c7g, c7st1, c7st1Z, initState, invPerm, getQ, setQ,
    PassState.ty, PassState.gs, PassState.av, toggle_element, removeFirst]
  rfl

set_option maxHeartbeats 1000000 in
theorem c7pg3z (p q : ℚ) (i : Nat) (mz : Bool) (hq0 : q ≠ 0) (hq1 : q ≠ 1)
    (hr : pymod (q + p) 2 = 1) :
    Optimizer.parse_gate (c7st1 p mz) (c7g q i) = Except.ok (c7stZ mz 1) := by
  unfold Optimizer.parse_gate
  dsimp only [c7g]
  rw [show invPerm (c7st1 p mz) 0 = 0 from rfl]
  simp [c7g, c7st1, c7stZ, initState, invPerm, hq0, hq1, hr, getQ, setQ,
    PassState.ty, PassState.gs, PassState.av, toggle_element, removeFirst]
  rfl

set_option maxHeartbeats 1000000 in
theorem c7pg3f (p q : ℚ) (i : Nat) (mz : Bool) (hq0 : q ≠ 0) (hq1 : q ≠ 1)
    (hr0 : pymod (q + p) 2 ≠ 0) (hr1 : pymod (q + p) 2 ≠ 1) :
    Optimizer.parse_gate (c7st1 p mz) (c7g q i) =
      Except.ok (c7str (pymod (q + p) 2) mz) := by
  unfold Optimizer.parse_gate
  dsimp only [c7g]
  rw [show invPerm (c7st1 p mz) 0 = 0 from rfl]
  simp [c7g, c7st1, c7str, initState, invPerm, hq0, hq1, hr0, hr1, getQ, setQ,
    PassState.ty, PassState.gs, PassState.av, toggle_element, removeFirst,
    Optimizer.add_gate]
  rfl

set_option maxHeartbeats 1000000 in
theorem c7pg3e (p q : ℚ) (i : Nat) (mz : Bool) (hq0 : q ≠ 0) (hq1 : q ≠ 1)
    (hr : pymod (q + p) 2 = 0) :
    Optimizer.parse_gate (c7st1 p mz) (c7g q i) = Except.ok (c7stE mz 1) := by
  unfold Optimizer.parse_gate
  dsimp only [c7g]
  rw [show invPerm (c7st1 p mz) 0 = 0 from rfl]
  simp [c7g, c7st1, c7stE, initState, invPerm, hq0, hq1, hr, getQ, setQ,
    PassState.ty, PassState.gs, PassState.av, toggle_element, removeFirst]
  rfl

set_option maxHeartbeats 1000000 in
theorem c7pg4 (q : ℚ) (i : Nat) (mz : Bool)
    (hr0 : pymod (q + 1) 2 ≠ 0) (hr1 : pymod (q + 1) 2 ≠ 1) :
    Optimizer.parse_gate (c7stZ mz 0) (c7g q i) =
      Except.ok (c7st1 (pymod (q + 1) 2) mz) := by
  unfold Optimizer.parse_gate
  dsimp only [c7g]
  rw [show invPerm (c7stZ mz 0) 0 = 0 from rfl]
  simp [c7g, c7stZ, c7st1, initState, invPerm, hr0, hr1, getQ, setQ,
    PassState.ty, PassState.gs, PassState.av, toggle_element, removeFirst,
    Optimizer.add_gate]
  rfl

set_option maxHeartbeats 1000000 in
theorem c7pg4e (i n : Nat) (mz : Bool) :
    Optimizer.parse_gate (c7stZ mz n) (c7g 1 i) = Except.ok (c7stE mz n) := by
  unfold Optimizer.parse_gate
  dsimp only [c7g]
  rw [show invPerm (c7stZ mz n) 0 = 0 from rfl]
  simp [c7g, c7stZ, c7stE, initState, invPerm, getQ, setQ, pymod_two_two,
    PassState.ty, PassState.gs, PassState.av, toggle_element, removeFirst]
  rw [show pymod ((1:ℚ) + 1) 2 = 0 from by norm_num [pymod_two_two]]
  rfl

theorem foldlM_ok_cons {f : PassState → Gate → Except String PassState}
    {st st' : PassState} {g : Gate} {gs : List Gate} (h : f st g = Except.ok st') :
    (g :: gs).foldlM f st = gs.foldlM f st' := by
  rw [List.foldlM_cons, h]
  rfl

theorem c7pfF (r : ℚ) (i : Nat) (mz : Bool) (hr0 : r ≠ 0) (hr1 : r ≠ 1) :
    Optimizer.parse_forward 1 mz [c7g r i] = Except.ok (⟨1, [c7g r 0]⟩, []) := by
  unfold Optimizer.parse_forward
  rw [foldlM_ok_cons (c7pg1 r i mz hr0 hr1)]
  rfl

theorem c7pfZ (i : Nat) (mz : Bool) :
    Optimizer.parse_forward 1 mz [c7g 1 i] = Except.ok (⟨1, [c7g 1 0]⟩, []) := by
  unfold Optimizer.parse_forward
  rw [foldlM_ok_cons (c7pg2 i mz)]
  rfl

theorem c7pfE (mz : Bool) :
    Optimizer.parse_forward 1 mz [] = Except.ok (⟨1, []⟩, []) := by
  rfl

theorem c7pfA (i j : Nat) (mz : Bool) :
    Optimizer.parse_forward 1 mz [c7g 1 i, c7g 1 j] = Except.ok (⟨1, []⟩, []) := by
  unfold Optimizer.parse_forward
  rw [foldlM_ok_cons (c7pg2 i mz), foldlM_ok_cons (c7pg4e j 0 mz)]
  rfl

theorem c7pfB (q : ℚ) (i j : Nat) (mz : Bool)
    (hr0 : pymod (q + 1) 2 ≠ 0) (hr1 : pymod (q + 1) 2 ≠ 1) :
    Optimizer.parse_forward 1 mz [c7g 1 i, c7g q j] =
      Except.ok (⟨1, [c7g (pymod (q + 1) 2) 0]⟩, []) := by
  unfold Optimizer.parse_forward
  rw [foldlM_ok_cons (c7pg2 i mz), foldlM_ok_cons (c7pg4 q j mz hr0 hr1)]
  rfl

theorem c7pfC (p : ℚ) (i j : Nat) (mz : Bool) (hp0 : p ≠ 0) (hp1 : p ≠ 1) :
    Optimizer.parse_forward 1 mz [c7g p i, c7g 1 j] =
      Except.ok (⟨1, [c7g p 0, c7g 1 1]⟩, []) := by
  unfold Optimizer.parse_forward
  rw [foldlM_ok_cons (c7pg1 p i mz hp0 hp1), foldlM_ok_cons (c7pg2b p j mz)]
  rfl

theorem c7pfD (p q : ℚ) (i j : Nat) (mz : Bool) (hp0 : p ≠ 0) (hp1 : p ≠ 1)
    (hq0 : q ≠ 0) (hq1 : q ≠ 1) (hr : pymod (q + p) 2 = 0) :
    Optimizer.parse_forward 1 mz [c7g p i, c7g q j] = Except.ok (⟨1, []⟩, []) := by
  unfold Optimizer.parse_forward
  rw [foldlM_ok_cons (c7pg1 p i mz hp0 hp1), foldlM_ok_cons (c7pg3e p q j mz hq0 hq1 hr)]
  rfl

theorem c7pfEZ (p q : ℚ) (i j : Nat) (mz : Bool) (hp0 : p ≠ 0) (hp1 : p ≠ 1)
    (hq0 : q ≠ 0) (hq1 : q ≠ 1) (hr : pymod (q + p) 2 = 1) :
    Optimizer.parse_forward 1 mz [c7g p i, c7g q j] =
      Except.ok (⟨1, [c7g 1 1]⟩, []) := by
  unfold Optimizer.parse_forward
  rw [foldlM_ok_cons (c7pg1 p i mz hp0 hp1), foldlM_ok_cons (c7pg3z p q j mz hq0 hq1 hr)]
  rfl

theorem c7pfFF (p q : ℚ) (i j : Nat) (mz : Bool) (hp0 : p ≠ 0) (hp1 : p ≠ 1)
    (hq0 : q ≠ 0) (hq1 : q ≠ 1)
    (hr0 : pymod (q + p) 2 ≠ 0) (hr1 : pymod (q + p) 2 ≠ 1) :
    Optimizer.parse_forward 1 mz [c7g p i, c7g q j] =
      Except.ok (⟨1, [c7g (pymod (q + p) 2) 1]⟩, []) := by
  unfold Optimizer.parse_forward
  rw [foldlM_ok_cons (c7pg1 p i mz hp0 hp1),
    foldlM_ok_cons (c7pg3f p q j mz hq0 hq1 hr0 hr1)]
  rfl

theorem c7stepF (r : ℚ) (i : Nat) (mz : Bool) (hr0 : r ≠ 0) (hr1 : r ≠ 1) :
    Optimizer.parse_circuit_step 1 mz [c7g r i] =
      Except.ok ([c7g r 0], ⟨1, [c7g r 0]⟩, []) := by
  unfold Optimizer.parse_circuit_step
  rw [show ([c7g r i] : List Gate).reverse = [c7g r i] from by simp]
  rw [c7pfF r i mz hr0 hr1]
  dsimp only []
  rw [show (([c7g r 0] : List Gate) ++ ([] : List Gate).flatMap to_basic_gates).reverse
    = [c7g r 0] from by simp]
  rw [c7pfF r 0 mz hr0 hr1]
  rfl

theorem c7stepZ (i : Nat) (mz : Bool) :
    Optimizer.parse_circuit_step 1 mz [c7g 1 i] =
      Except.ok ([c7g 1 0], ⟨1, [c7g 1 0]⟩, []) := by
  unfold Optimizer.parse_circuit_step
  rw [show ([c7g 1 i] : List Gate).reverse = [c7g 1 i] from by simp]
  rw [c7pfZ i mz]
  dsimp only []
  rw [show (([c7g 1 0] : List Gate) ++ ([] : List Gate).flatMap to_basic_gates).reverse
    = [c7g 1 0] from by simp]
  rw [c7pfZ 0 mz]
  rfl

theorem c7stepE (mz : Bool) :
    Optimizer.parse_circuit_step 1 mz [] = Except.ok ([], ⟨1, []⟩, []) := by
  rfl

theorem c7stepC (p : ℚ) (mz : Bool) (hp0 : p ≠ 0) (hp1 : p ≠ 1)
    (hr0 : pymod (p + 1) 2 ≠ 0) (hr1 : pymod (p + 1) 2 ≠ 1) :
    Optimizer.parse_circuit_step 1 mz [c7g p 0, c7g 1 1] =
      Except.ok ([c7g (pymod (p + 1) 2) 0], ⟨1, [c7g (pymod (p + 1) 2) 0]⟩, []) := by
  unfold Optimizer.parse_circuit_step
  rw [show ([c7g p 0, c7g 1 1] : List Gate).reverse = [c7g 1 1, c7g p 0] from by simp]
  rw [c7pfB p 1 0 mz hr0 hr1]
  dsimp only []
  rw [show (([c7g (pymod (p + 1) 2) 0] : List Gate) ++
    ([] : List Gate).flatMap to_basic_gates).reverse = [c7g (pymod (p + 1) 2) 0] from by simp]
  rw [c7pfF (pymod (p + 1) 2) 0 mz hr0 hr1]
  rfl

theorem countLE_self (s : Nat × Nat × Nat) : Optimizer.countLE s s = true := by
  simp [Optimizer.countLE]

theorem c7loop (G G' : List Gate) (c2 : Circuit) (cnt : Nat × Nat × Nat) (fuel : Nat)
    (h1 : Optimizer.parse_circuit_step 1 false G = Except.ok (G', c2, []))
    (h2 : Optimizer.parse_circuit_step 1 true G' = Except.ok (G', c2, [])) :
    Optimizer.parse_circuit_loop 1 1000 (fuel + 2) G cnt false 0 =
      Except.ok (c2.gates.map (fun g => { g with index := 0 }), [], 2) := by
  rw [show fuel + 2 = Nat.succ (fuel + 1) from rfl, Optimizer.parse_circuit_loop.eq_2, h1]
  dsimp only []
  rw [if_neg (show ¬(false = true ∧ (Optimizer.countLE cnt (stats c2) = true ∨ 0 + 1 ≥ 1000)) from
    fun h => by simp at h)]
  rw [show fuel + 1 = Nat.succ fuel from rfl, Optimizer.parse_circuit_loop.eq_2, h2]
  dsimp only []
  rw [if_pos (show true = true ∧ (Optimizer.countLE (stats c2) (stats c2) = true ∨ 0 + 1 + 1 ≥ 1000)
    from ⟨rfl, Or.inl (countLE_self _)⟩)]

theorem c7pcA (i j : Nat) :
    Optimizer.parse_circuit ⟨1, [c7g 1 i, c7g 1 j]⟩ 1000 =
      Except.ok (⟨1, []⟩, [], 2) := by
  unfold Optimizer.parse_circuit
  dsimp only []
  rw [c7pfA i j false]
  dsimp only []
  rw [show (([] : List Gate) ++ ([] : List Gate).flatMap to_basic_gates) = [] from by simp]
  rw [show (1000 + 3 : Nat) = 1001 + 2 from rfl]
  rw [c7loop _ _ _ _ 1001 (c7stepE false) (c7stepE true)]
  rfl

theorem c7pcB (q : ℚ) (i j : Nat)
    (hr0 : pymod (q + 1) 2 ≠ 0) (hr1 : pymod (q + 1) 2 ≠ 1) :
    Optimizer.parse_circuit ⟨1, [c7g 1 i, c7g q j]⟩ 1000 =
      Except.ok (⟨1, [c7g (pymod (q + 1) 2) 0]⟩, [], 2) := by
  unfold Optimizer.parse_circuit
  dsimp only []
  rw [c7pfB q i j false hr0 hr1]
  dsimp only []
  rw [show (([c7g (pymod (q + 1) 2) 0] : List Gate) ++
    ([] : List Gate).flatMap to_basic_gates) = [c7g (pymod (q + 1) 2) 0] from by simp]
  rw [show (1000 + 3 : Nat) = 1001 + 2 from rfl]
  rw [c7loop _ _ _ _ 1001 (c7stepF (pymod (q + 1) 2) 0 false hr0 hr1)
    (c7stepF (pymod (q + 1) 2) 0 true hr0 hr1)]
  rfl

theorem c7pcC (p : ℚ) (i j : Nat) (hp0 : p ≠ 0) (hp1 : p ≠ 1)
    (hr0 : pymod (p + 1) 2 ≠ 0) (hr1 : pymod (p + 1) 2 ≠ 1) :
    Optimizer.parse_circuit ⟨1, [c7g p i, c7g 1 j]⟩ 1000 =
      Except.ok (⟨1, [c7g (pymod (p + 1) 2) 0]⟩, [], 2) := by
  unfold Optimizer.parse_circuit
  dsimp only []
  rw [c7pfC p i j false hp0 hp1]
  dsimp only []
  rw [show (([c7g p 0, c7g 1 1] : List Gate) ++
    ([] : List Gate).flatMap to_basic_gates) = [c7g p 0, c7g 1 1] from by simp]
  rw [show (1000 + 3 : Nat) = 1001 + 2 from rfl]
  rw [c7loop _ _ _ _ 1001 (c7stepC p false hp0 hp1 hr0 hr1)
    (c7stepF (pymod (p + 1) 2) 0 true hr0 hr1)]
  rfl

theorem c7pcD (p q : ℚ) (i j : Nat) (hp0 : p ≠ 0) (hp1 : p ≠ 1)
    (hq0 : q ≠ 0) (hq1 : q ≠ 1) (hr : pymod (q + p) 2 = 0) :
    Optimizer.parse_circuit ⟨1, [c7g p i, c7g q j]⟩ 1000 =
      Except.ok (⟨1, []⟩, [], 2) := by
  unfold Optimizer.parse_circuit
  dsimp only []
  rw [c7pfD p q i j false hp0 hp1 hq0 hq1 hr]
  dsimp only []
  rw [show (([] : List Gate) ++ ([] : List Gate).flatMap to_basic_gates) = [] from by simp]
  rw [show (1000 + 3 : Nat) = 1001 + 2 from rfl]
  rw [c7loop _ _ _ _ 1001 (c7stepE false) (c7stepE true)]
  rfl

theorem c7pcEZ (p q : ℚ) (i j : Nat) (hp0 : p ≠ 0) (hp1 : p ≠ 1)
    (hq0 : q ≠ 0) (hq1 : q ≠ 1) (hr : pymod (q + p) 2 = 1) :
    Optimizer.parse_circuit ⟨1, [c7g p i, c7g q j]⟩ 1000 =
      Except.ok (⟨1, [c7g 1 0]⟩, [], 2) := by
  unfold Optimizer.parse_circuit
  dsimp only []
  rw [c7pfEZ p q i j false hp0 hp1 hq0 hq1 hr]
  dsimp only []
  rw [show (([c7g 1 1] : List Gate) ++ ([] : List Gate).flatMap to_basic_gates)
    = [c7g 1 1] from by simp]
  rw [show (1000 + 3 : Nat) = 1001 + 2 from rfl]
  rw [c7loop _ _ _ _ 1001 (c7stepZ 1 false) (c7stepZ 0 true)]
  rfl

theorem c7pcFF (p q : ℚ) (i j : Nat) (hp0 : p ≠ 0) (hp1 : p ≠ 1)
    (hq0 : q ≠ 0) (hq1 : q ≠ 1)
    (hr0 : pymod (q + p) 2 ≠ 0) (hr1 : pymod (q + p) 2 ≠ 1) :
    Optimizer.parse_circuit ⟨1, [c7g p i, c7g q j]⟩ 1000 =
      Except.ok (⟨1, [c7g (pymod (q + p) 2) 0]⟩, [], 2) := by
  unfold Optimizer.parse_circuit
  dsimp only []
  rw [c7pfFF p q i j false hp0 hp1 hq0 hq1 hr0 hr1]
  dsimp only []
  rw [show (([c7g (pymod (q + p) 2) 1] : List Gate) ++
    ([] : List Gate).flatMap to_basic_gates) = [c7g (pymod (q + p) 2) 1] from by simp]
  rw [show (1000 + 3 : Nat) = 1001 + 2 from rfl]
  rw [c7loop _ _ _ _ 1001 (c7stepF (pymod (q + p) 2) 1 false hr0 hr1)
    (c7stepF (pymod (q + p) 2) 0 true hr0 hr1)]
  rfl

theorem c7arith1 {q : ℚ} (h0 : 0 < q) (h2 : q < 2) (h1 : q ≠ 1) :
    pymod (q + 1) 2 ≠ 0 ∧ pymod (q + 1) 2 ≠ 1 := by
  by_cases hlt : q + 1 < 2
  · rw [pymod_two_self (by linarith) hlt]
    constructor <;> intro h <;> linarith
  · push_neg at hlt
    rw [pymod_two_sub hlt (by linarith)]
    constructor <;> intro h
    · exact h1 (by linarith)
    · linarith

/-- Claim C7: a circuit of exactly two consecutive Z-phase rotations on the same
qubit with phases `p, q ∈ (0, 2)` optimizes to the empty circuit when `(p+q) mod 2 = 0`,
and otherwise to the single Z-phase `(p+q) mod 2` — which for `(p+q) mod 2 = 1` is
exactly the materialized π (Z) gate. -/
theorem C7_phase_fusion (p q : ℚ) (hp0 : 0 < p) (hp2 : p < 2) (hq0 : 0 < q) (hq2 : q < 2) :
    basic_optimization ⟨1, [ZPhaseG 0 p, ZPhaseG 0 q]⟩ =
      Except.ok ⟨1, if pymod (p + q) 2 = 0 then []
        else [⟨.zphase, 0, 0, pymod (p + q) 2, 0⟩]⟩ := by
  have hp0' : p ≠ 0 := ne_of_gt hp0
  have hq0' : q ≠ 0 := ne_of_gt hq0
  rw [show (⟨1, [ZPhaseG 0 p, ZPhaseG 0 q]⟩ : Circuit) = ⟨1, [c7g p 0, c7g q 0]⟩ from rfl]
  by_cases hp1 : p = 1
  · subst hp1
    by_cases hq1 : q = 1
    · subst hq1
      rw [show pymod ((1 : ℚ) + 1) 2 = 0 from by norm_num [pymod_two_two], if_pos rfl]
      unfold basic_optimization
      rw [c7pcA 0 0]
      rfl
    · obtain ⟨hr0, hr1⟩ := c7arith1 hq0 hq2 hq1
      have hc : pymod (1 + q) 2 = pymod (q + 1) 2 := by rw [add_comm]
      rw [hc, if_neg hr0]
      unfold basic_optimization
      rw [c7pcB q 0 0 hr0 hr1]
      rfl
  · by_cases hq1 : q = 1
    · subst hq1
      obtain ⟨hr0, hr1⟩ := c7arith1 hp0 hp2 hp1
      rw [if_neg hr0]
      unfold basic_optimization
      rw [c7pcC p 0 0 hp0' hp1 hr0 hr1]
      rfl
    · have hc : pymod (p + q) 2 = pymod (q + p) 2 := by rw [add_comm]
      rw [hc]
      by_cases hr0 : pymod (q + p) 2 = 0
      · rw [if_pos hr0]
        unfold basic_optimization
        rw [c7pcD p q 0 0 hp0' hp1 hq0' hq1 hr0]
        rfl
      · rw [if_neg hr0]
        by_cases hr1 : pymod (q + p) 2 = 1
        · unfold basic_optimization
          rw [c7pcEZ p q 0 0 hp0' hp1 hq0' hq1 hr1, hr1]
          rfl
        · unfold basic_optimization
          rw [c7pcFF p q 0 0 hp0' hp1 hq0' hq1 hr0 hr1]
          rfl

/-- Witness for `C7_phase_fusion` at `p = q = 1/2`: `S · S` fuses to the single
`Z`-phase `1`. -/
theorem C7_phase_fusion_witness :
    (0 : ℚ) < 1/2 ∧ basic_optimization ⟨1, [ZPhaseG 0 (1/2), ZPhaseG 0 (1/2)]⟩ =
      Except.ok ⟨1, if pymod (1/2 + 1/2) 2 = 0 then []
        else [⟨.zphase, 0, 0, pymod (1/2 + 1/2) 2, 0⟩]⟩ :=
  ⟨by norm_num,
    C7_phase_fusion (1/2) (1/2) (by norm_num) (by norm_num) (by norm_num) (by norm_num)⟩

/-- Witness for `C9_hsh`: the state holding `HAD; S` on the single qubit, hit by an
incoming Hadamard. -/
theorem C9_hsh_witness :
    (0 : Nat) < c9st.gates.length ∧
    Optimizer.parse_gate c9st (HADG 0) =
      Except.ok { c9st with
        gcount := c9st.gcount + 1
        gates := setQ c9st.gates 0
          ([] ++ [{ ZPhaseG 0 (pymod (-c9sg.phase) 2) with index := c9st.gcount }, c9hg,
            { c9sg with phase := pymod (-c9sg.phase) 2 }])
        available := setQ c9st.available 0
          ((c9st.av 0).map fun x =>
            if x = c9sg then { c9sg with phase := pymod (-c9sg.phase) 2 } else x) } :=
  ⟨by decide,
    C9_hsh c9st 0 [] c9hg c9sg (by decide) rfl rfl rfl rfl rfl (by decide)
      (by decide) (by decide)⟩

/-- Claim C2's counterexample: a 4-qubit, 6-CNOT circuit whose first
`basic_optimization` pass yields 10 two-qubit gates while a second application of
`basic_optimization` to that result yields only 6 — the metric triple of the second
result is not componentwise ≥ the first's, so one run is not a fixpoint. -/
theorem C2_counterexample :
    basic_optimization c2in = Except.ok c2mid ∧
    basic_optimization c2mid = Except.ok c2out ∧
    stats c2mid = (0, 10, 0) ∧ stats c2out = (0, 6, 0) ∧
    ¬ ((stats c2mid).1 ≤ (stats c2out).1 ∧ (stats c2mid).2.1 ≤ (stats c2out).2.1 ∧
        (stats c2mid).2.2 ≤ (stats c2out).2.2) :=
  ⟨c2run1, c2run2, rfl, rfl, by decide⟩

/-- Claim C2 (amended): the metric-triple comparison is a per-call loop-break test,
not a cross-call fixpoint property — within one run of the Fixpoint Driver, as soon as
a reversed+forward round produces a circuit none of whose three metrics improved on
the previous round's, the loop returns that round's circuit immediately.  A second
full call of `basic_optimization` can still reduce the metrics further
(`C2_counterexample`). -/
theorem C2_loop_fixpoint (q m fuel i : Nat) (G G' : List Gate) (c2 : Circuit)
    (corr2 : List Gate) (cnt : Nat × Nat × Nat)
    (hstep : Optimizer.parse_circuit_step q true G = Except.ok (G', c2, corr2))
    (hle : Optimizer.countLE cnt (stats c2) = true) :
    Optimizer.parse_circuit_loop q m (fuel + 1) G cnt true i =
      Except.ok (c2.gates.map (fun g => { g with index := 0 }), corr2, i + 1) := by
  rw [show fuel + 1 = Nat.succ fuel from rfl, Optimizer.parse_circuit_loop.eq_2, hstep]
  dsimp only []
  rw [if_pos (show true = true ∧ (Optimizer.countLE cnt (stats c2) = true ∨ i + 1 ≥ m)
    from ⟨rfl, Or.inl hle⟩)]

/-- Witness for `C2_loop_fixpoint` at the concrete instance of the empty circuit. -/
theorem C2_loop_fixpoint_witness :
    Optimizer.parse_circuit_step 1 true [] = Except.ok ([], ⟨1, []⟩, []) ∧
    Optimizer.parse_circuit_loop 1 1000 1 [] (0, 0, 0) true 0 =
      Except.ok ([], [], 1) :=
  ⟨rfl, C2_loop_fixpoint 1 1000 0 0 [] [] ⟨1, []⟩ [] (0, 0, 0) rfl rfl⟩

/-- Claim C3's counterexample: a NOT gate is outside the Phase-Block Driver's
supported set, yet `phase_block_optimize` with the default pre-optimization accepts
the circuit `[NOT 0]` and returns it unchanged instead of raising an error (the
pre-optimization pass absorbs the NOT into a correction that is re-materialized). -/
theorem C3_counterexample :
    ¬ pbSupported (NOTG 0) ∧
    phase_block_optimize todd_id ⟨1, [NOTG 0]⟩ true = Except.ok ⟨1, [NOTG 0]⟩ :=
  ⟨by decide, rfl⟩

/-- Claim C4: the invariant is broken by the source's no-op comparison
`self.availty[t] == 1` (line 224, an intended assignment) — after the CZ-minimization
pass over `CNOT(0,1); CZ(0,1)`, the reached state (`c4state`) still has
`availty[1] = 2` (X-like window) while `available[1]` holds the Z-like phase gate
`S(1)` placed by the `CNOT·CZ = (S†⊗I)·CNOT·(S⊗S)` rewrite. -/
theorem C4_availty_mismatch :
    [CNOTG 0 1, CZG 0 1].foldlM Optimizer.parse_gate (initState 2 true) =
      Except.ok c4state ∧
    c4state.ty 1 = 2 ∧
    (⟨.zphase, 1, 0, 1/2, 2⟩ : Gate) ∈ c4state.av 1 ∧
    isZPhase (⟨.zphase, 1, 0, 1/2, 2⟩ : Gate) :=
  ⟨rfl, rfl, by simp [c4state, PassState.av, getQ], rfl⟩

/-- Claim C6's counterexample: with `max_iterations = 1` the Fixpoint Driver still
performs 2 reversed+forward rounds after the initial pass — more than the claimed cap
of `max_iterations` rounds — because `i` is compared against the cap only after it was
already incremented past the first, unconditional round. -/
theorem C6_counterexample :
    Optimizer.parse_circuit ⟨1, []⟩ 1 = Except.ok (⟨1, []⟩, [], 2) ∧ 2 > 1 :=
  ⟨rfl, by decide⟩

/-- Claim C6 (amended): the Fixpoint Driver always performs at least 2
reversed+forward rounds after the initial forward pass (the first round runs before
any comparison), and at most `max 2 max_iterations` rounds; the metric comparison and
the cap bound every further round. -/
theorem C6_rounds_bound (c : Circuit) (m : Nat) (res : Circuit × List Gate × Nat)
    (h : Optimizer.parse_circuit c m = Except.ok res) :
    2 ≤ res.2.2 ∧ res.2.2 ≤ max 2 m := by
  unfold Optimizer.parse_circuit at h
  rcases h1 : Optimizer.parse_forward c.qubits false c.gates with e | v
  · rw [h1] at h
    simp at h
  · obtain ⟨c1, corr1⟩ := v
    rw [h1] at h
    dsimp only [] at h
    rcases h2 : Optimizer.parse_circuit_loop c.qubits m (m + 3)
        (c1.gates ++ corr1.flatMap to_basic_gates) (stats c1) false 0 with e | w
    · rw [h2] at h
      simp at h
    · obtain ⟨body, corr, rounds⟩ := w
      rw [h2] at h
      dsimp only [] at h
      obtain rfl := Except.ok.inj h
      have hge := (pcl_rounds_ge c.qubits m (m + 3) _ _ false 0 _ h2).2 rfl
      have hle := (pcl_rounds_le c.qubits m (m + 3) _ _ false 0 _ h2).1
      exact ⟨hge, hle⟩

/-- Witness for `C6_rounds_bound` on the empty single-qubit circuit. -/
theorem C6_rounds_bound_witness :
    Optimizer.parse_circuit ⟨1, []⟩ 1000 = Except.ok (⟨1, []⟩, [], 2) ∧
    (2 ≤ 2 ∧ 2 ≤ max 2 1000) :=
  ⟨rfl, C6_rounds_bound ⟨1, []⟩ 1000 (⟨1, []⟩, [], 2) rfl⟩

/-- Claim C8: both internal-consistency checks abort the optimization with an
error instead of returning a circuit — the Greedy Block Extractor on the crafted
structure `c8gates` (a CZ behind the blocking Hadamards of both its qubits whose
pairing index the front scan nevertheless makes available) raises the
"CZ behind two Hadamard gates" error, and the Phase-Block Driver's loop raises
"Hadamards did not extract correctly" when the reverse extraction returns a
different number of Hadamards than were fed in. -/
theorem C8_invariant_violations :
    greedy_consume_gates c8gates 2 =
      Except.error "CZ behind two Hadamard gates. This is not supposed to happen" ∧
    pbLoop todd_id 1 1 [(0, [ZPhaseG 0 (1/2)])] [] [HADG 0, HADG 0] [] [0] [] =
      Except.error "Hadamards did not extract correctly" :=
  ⟨rfl, rfl⟩

/-- Claim C3 (amended): each entry point rejects the gate kinds outside its own
supported set, on the paths that actually parse them — `basic_optimization` returns
the "Unknown gate" error for every circuit containing a rewriter-unsupported gate,
and `phase_block_optimize` run directly (without the pre-optimization pass) returns
an error for every circuit containing a gate outside the Phase-Block supported set
(for example a NOT, or a phase of denominator 8, even though those are
rewriter-supported); the input `Circuit` value is immutable in this embedding, so its
gate sequence is trivially unchanged.  The original claim's universal error promise
is refuted by `C3_counterexample`: with the default pre-optimization, a NOT gate —
outside the Phase-Block Driver's supported set — is accepted and returned intact. -/
theorem C3_unsupported_rejected (c : Circuit)
    (todd : List Gate → Nat → List Gate × List Nat) :
    ((∃ g ∈ c.gates, ¬ basicSupported g) →
      basic_optimization c = Except.error "Unknown gate") ∧
    ((∃ g ∈ c.gates, ¬ pbSupported g) →
      ∃ e, phase_block_optimize todd c false = Except.error e) :=
  ⟨fun hb => basic_optimization_err c 1000 hb, fun hp => phase_block_err todd c hp⟩

theorem C3_unsupported_rejected_witness :
    ((∃ g ∈ [NOTG 0], ¬ pbSupported g) ∧
      ∃ e, phase_block_optimize todd_id ⟨1, [NOTG 0]⟩ false = Except.error e) ∧
    ((∃ g ∈ [XPhaseG 0 (1/2)], ¬ basicSupported g) ∧
      basic_optimization ⟨1, [XPhaseG 0 (1/2)]⟩ = Except.error "Unknown gate") :=
  ⟨⟨⟨NOTG 0, by simp, by decide⟩,
    (C3_unsupported_rejected ⟨1, [NOTG 0]⟩ todd_id).2 ⟨NOTG 0, by simp, by decide⟩⟩,
   ⟨⟨XPhaseG 0 (1/2), by simp, by decide⟩,
    (C3_unsupported_rejected ⟨1, [XPhaseG 0 (1/2)]⟩ todd_id).1
      ⟨XPhaseG 0 (1/2), by simp, by decide⟩⟩⟩

end PyZX
